import Mathlib

/-!
MentorMirror: verification of the natural-language specification.

Shallow embedding of the MentorMirror repository (mentor_mirror_pipeline.py,
style_emulation_system.py, url2txts.py, mentor_mirror_gui.py) in Lean 4,
together with theorems settling the frozen claims C1..C10.

Python strings are modelled as Lean `String`s (lists of characters); Python
values relevant to the code (None, str, int, bool, dict, list) are modelled by
the inductive `PyVal`.  `str.lower` is modelled by ASCII lowercasing
(`Char.toLower`), which agrees with Python on all ASCII input; every character
class used by the code (`[^a-z0-9_\-]`, `\s`, `[a-zA-Z]`) is ASCII-only, so
this is faithful on the inputs the properties quantify over.  External effects
(LLM calls, the file system, validation results read back from disk) are
modelled by explicit oracle records threaded through the pipeline functions.
-/

/-! ## Character classes and elementary string scanning -/

/-- `[a-z0-9_\-]`: the characters kept by the `re.sub(r'[^a-z0-9_\-]', '', name)`
step of `safe_filename` (mentor_mirror_pipeline.py line 35, mentor_mirror_gui.py
line 44).  Stated on code points: 97-122 is `a`-`z`, 48-57 is `0`-`9`,
95 is `_`, 45 is `-`. -/
def isSafeChar (c : Char) : Bool :=
  (97 ≤ c.toNat && c.toNat ≤ 122) || (48 ≤ c.toNat && c.toNat ≤ 57) ||
    c.toNat == 95 || c.toNat == 45

/-- Python's `\s` / `str.strip` whitespace, restricted to ASCII:
space, tab, newline, carriage return, form feed, vertical tab. -/
def isPySpace (c : Char) : Bool :=
  c == ' ' || c == '\t' || c == '\n' || c == '\r' || c == '\x0c' || c == '\x0b'

/-- `[a-zA-Z]`. -/
def isAsciiLetter (c : Char) : Bool :=
  ('a' ≤ c && c ≤ 'z') || ('A' ≤ c && c ≤ 'Z')

/-- Does the list `p` occur as an initial segment of `l`? -/
def listStarts : List Char → List Char → Bool
  | [], _ => true
  | _ :: _, [] => false
  | p :: ps, c :: cs => p == c && listStarts ps cs

/-- Does `needle` occur as a contiguous sublist of `hay`?  Models Python's
`needle in hay` on strings. -/
def containsSub (needle : List Char) : List Char → Bool
  | [] => listStarts needle []
  | c :: cs => listStarts needle (c :: cs) || containsSub needle cs

/-- Python `str.startswith`. -/
def pyStartsWith (s pre : String) : Bool :=
  listStarts pre.data s.data

/-- Python `needle in hay` for strings. -/
def pyIn (needle hay : String) : Bool :=
  containsSub needle.data hay.data

/-- Python `str.lower`, ASCII fragment (see the file header). -/
def pyLower (s : String) : String :=
  String.mk (s.data.map Char.toLower)

/-- Python `str.strip()` (whitespace strip at both ends), ASCII whitespace. -/
def pyStrip (s : String) : String :=
  String.mk ((((s.data.dropWhile isPySpace).reverse.dropWhile isPySpace).reverse))

/-! ## `safe_filename` (mentor_mirror_pipeline.py lines 32-35)

```python
def safe_filename(name: str) -> str:
    name = name.lower().replace(" ", "_")
    return re.sub(r'[^a-z0-9_\-]', '', name)
```

The identical function appears in mentor_mirror_gui.py lines 41-44.
`.lower()` lowercases each character, `.replace(" ", "_")` maps each space to
an underscore, and the regex substitution deletes every character outside
`[a-z0-9_\-]`; the composition is the per-character pipeline below. -/

def safe_filename (name : String) : String :=
  String.mk
    (((name.data.map Char.toLower).map (fun c => if c = ' ' then '_' else c)).filter
      (fun c => isSafeChar c))

/-! ## Decimal rendering of naturals

Models Python's decimal formatting of a non-negative `int` inside an f-string,
as used by `f"Unknown Author {counter}"` (mentor_mirror_pipeline.py line 70).
The recursion is driven by a fuel argument so that the definition is
structural (hence computable by the kernel); `natRepr` supplies fuel `n + 1`,
which `natReprCore_foldl` shows is always sufficient. -/

/-- The decimal digit character for `d < 10` (codepoint `48 + d`). -/
def decDigitChar (d : Nat) : Char :=
  if d = 0 then '0' else if d = 1 then '1' else if d = 2 then '2'
  else if d = 3 then '3' else if d = 4 then '4' else if d = 5 then '5'
  else if d = 6 then '6' else if d = 7 then '7' else if d = 8 then '8'
  else if d = 9 then '9' else '*'

/-- Decimal digits of `n`, most significant first, prepended to `acc`. -/
def natReprCore : Nat → Nat → List Char → List Char
  | 0, _, acc => acc
  | fuel + 1, n, acc =>
    if n < 10 then decDigitChar (n % 10) :: acc
    else natReprCore fuel (n / 10) (decDigitChar (n % 10) :: acc)

/-- Decimal rendering of a natural number. -/
def natRepr (n : Nat) : String :=
  String.mk (natReprCore (n + 1) n [])

/-! ## `get_unique_author_name` (mentor_mirror_pipeline.py lines 62-76)

```python
def get_unique_author_name(base_name: str, mentors_db: Dict[str, Any]) -> str:
    if base_name.lower() != "unknown author":
        return base_name
    counter = 1
    while True:
        candidate_name = f"Unknown Author {counter}"
        safe_candidate = safe_filename(candidate_name)
        if safe_candidate not in mentors_db:
            return candidate_name
        counter += 1
```

The mentors database is modelled by its list of keys.  The unbounded `while`
loop is modelled by a fuel-indexed loop; `uniqueLoop_finds` together with
`exists_free_candidate` shows the fuel `db.length + 1` is always enough, so
the fuel-exhaustion branch is unreachable and the model coincides with the
Python loop. -/

def unknownCandidate (k : Nat) : String :=
  "Unknown Author " ++ natRepr k

def uniqueLoop (db : List String) : Nat → Nat → String
  | 0, k => unknownCandidate k
  | fuel + 1, k =>
    if safe_filename (unknownCandidate k) ∈ db then uniqueLoop db fuel (k + 1)
    else unknownCandidate k

def get_unique_author_name (base_name : String) (db : List String) : String :=
  if pyLower base_name ≠ "unknown author" then base_name
  else uniqueLoop db (db.length + 1) 1

/-! ## Python values

`PyVal` models the Python values that flow through this code: `None`, `bool`,
`int`, `float`, `str`, `list`, `dict` (with string keys, as produced by
`json.loads`).  Floats carry their source lexeme: the code never computes with
float values, it only renders them, and the claims' concrete inputs avoid
floats, so the lexeme is an adequate model. -/

inductive PyVal where
  | none : PyVal
  | bool (b : Bool) : PyVal
  | int (n : Int) : PyVal
  | float (lexeme : String) : PyVal
  | str (s : String) : PyVal
  | list (items : List PyVal) : PyVal
  | dict (entries : List (String × PyVal)) : PyVal
deriving BEq

/-- Python truthiness of a `PyVal` (`if content:`). -/
def pyTruthy : PyVal → Bool
  | PyVal.none => false
  | PyVal.bool b => b
  | PyVal.int n => n != 0
  | PyVal.float lex => lex != "0" && lex != "0.0" && lex != "-0.0"
  | PyVal.str s => s ≠ ""
  | PyVal.list items => !items.isEmpty
  | PyVal.dict entries => !entries.isEmpty

/-- `isinstance(v, dict)`. -/
def isPyDict : PyVal → Bool
  | PyVal.dict _ => true
  | _ => false

/-- `isinstance(v, list)`. -/
def isPyList : PyVal → Bool
  | PyVal.list _ => true
  | _ => false

/-- `isinstance(v, str)`, returning the string. -/
def asPyStr : PyVal → Option String
  | PyVal.str s => Option.some s
  | _ => Option.none

/-! ## Python `repr`/`str` rendering

`pyStr` models Python's `str()` as used in `len(str(content))` checks.
`str` of a string is the string itself; for every other value `str` agrees
with `repr`.  `pyReprString` implements CPython's quote selection (single
quotes unless the string contains `'` but no `"`) and its escapes for the
backslash, the active quote, and control characters; non-ASCII printable
characters are kept verbatim, matching Python 3. -/

/-- Two-digit lowercase hex rendering of `n < 256`. -/
def hexByte (n : Nat) : String :=
  let hd : Nat → Char := fun d =>
    if d < 10 then decDigitChar d
    else if d = 10 then 'a' else if d = 11 then 'b' else if d = 12 then 'c'
    else if d = 13 then 'd' else if d = 14 then 'e' else 'f'
  String.mk [hd (n / 16 % 16), hd (n % 16)]

def pyReprString (s : String) : String :=
  let quote : Char :=
    if s.data.contains '\'' && !(s.data.contains '"') then '"' else '\''
  let esc : Char → List Char := fun c =>
    if c = '\\' then ['\\', '\\']
    else if c = quote then ['\\', c]
    else if c = '\n' then ['\\', 'n']
    else if c = '\r' then ['\\', 'r']
    else if c = '\t' then ['\\', 't']
    else if c.toNat < 32 || c.toNat = 127 then
      '\\' :: 'x' :: (hexByte c.toNat).data
    else [c]
  String.mk (quote :: s.data.flatMap esc ++ [quote])

/-- Decimal rendering of an integer. -/
def intRepr (n : Int) : String :=
  if n < 0 then "-" ++ natRepr (-n).toNat else natRepr n.toNat

/-- Python `repr` of a value. -/
def pyRepr : PyVal → String
  | PyVal.none => "None"
  | PyVal.bool true => "True"
  | PyVal.bool false => "False"
  | PyVal.int n => intRepr n
  | PyVal.float lex => lex
  | PyVal.str s => pyReprString s
  | PyVal.list items =>
    "[" ++ String.intercalate ", "
      (items.attach.map (fun x => pyRepr x.1)) ++ "]"
  | PyVal.dict entries =>
    "\x7b" ++ String.intercalate ", "
      (entries.attach.map (fun x => pyReprString x.1.1 ++ ": " ++ pyRepr x.1.2)) ++
      "\x7d"
decreasing_by
  · rcases x with ⟨v, hv⟩
    have := List.sizeOf_lt_of_mem hv
    simp_wf
    omega
  · rcases x with ⟨⟨k, v⟩, hv⟩
    have := List.sizeOf_lt_of_mem hv
    simp_wf
    simp at this
    omega

/-- Python `str` of a value (`len(str(content))`). -/
def pyStr : PyVal → String
  | PyVal.str s => s
  | v => pyRepr v

/-! ## `json.loads`

A model of Python's `json.loads` that is total and executable: JSON
whitespace, strings with all JSON escapes (including surrogate pairs),
numbers (returning `int` when there is no fraction/exponent, `float`
otherwise), the literals `true`/`false`/`null` and the CPython extensions
`NaN`/`Infinity`/`-Infinity`, arrays and objects (rejecting trailing commas).
Objects keep their key/value pairs in source order (the claims' inputs do not
use duplicate keys, where CPython would keep the last binding only).  The
recursion is fuelled; `json_loads` supplies fuel `2 * length + 2`, which
bounds the parser's call depth on any input. -/

def isJsonWs (c : Char) : Bool :=
  c == ' ' || c == '\t' || c == '\n' || c == '\r'

def skipJsonWs (cs : List Char) : List Char :=
  cs.dropWhile isJsonWs

def hexVal (c : Char) : Option Nat :=
  if 48 ≤ c.toNat && c.toNat ≤ 57 then Option.some (c.toNat - 48)
  else if 97 ≤ c.toNat && c.toNat ≤ 102 then Option.some (c.toNat - 87)
  else if 65 ≤ c.toNat && c.toNat ≤ 70 then Option.some (c.toNat - 55)
  else Option.none

/-- Parse the body of a JSON string (the opening quote already consumed),
accumulating decoded characters in reverse in `acc`. -/
def parseJStr : Nat → List Char → List Char → Option (String × List Char)
  | 0, _, _ => Option.none
  | _ + 1, [], _ => Option.none
  | _ + 1, '"' :: rest, acc => Option.some (String.mk acc.reverse, rest)
  | fuel + 1, '\\' :: rest, acc =>
    match rest with
    | 'u' :: a :: b :: c :: d :: rest2 =>
      match hexVal a, hexVal b, hexVal c, hexVal d with
      | Option.some ha, Option.some hb, Option.some hc, Option.some hd =>
        let n := ((ha * 16 + hb) * 16 + hc) * 16 + hd
        if 0xD800 ≤ n && n ≤ 0xDBFF then
          match rest2 with
          | '\\' :: 'u' :: e :: f :: g :: h :: rest3 =>
            match hexVal e, hexVal f, hexVal g, hexVal h with
            | Option.some he, Option.some hf, Option.some hg, Option.some hh =>
              let m := ((he * 16 + hf) * 16 + hg) * 16 + hh
              if 0xDC00 ≤ m && m ≤ 0xDFFF then
                parseJStr fuel rest3
                  (Char.ofNat (0x10000 + (n - 0xD800) * 0x400 + (m - 0xDC00)) :: acc)
              else parseJStr fuel rest3 (Char.ofNat n :: Char.ofNat m :: acc)
            | _, _, _, _ => Option.none
          | _ => parseJStr fuel rest2 (Char.ofNat n :: acc)
        else parseJStr fuel rest2 (Char.ofNat n :: acc)
      | _, _, _, _ => Option.none
    | '"' :: rest2 => parseJStr fuel rest2 ('"' :: acc)
    | '\\' :: rest2 => parseJStr fuel rest2 ('\\' :: acc)
    | '/' :: rest2 => parseJStr fuel rest2 ('/' :: acc)
    | 'b' :: rest2 => parseJStr fuel rest2 ('\x08' :: acc)
    | 'f' :: rest2 => parseJStr fuel rest2 ('\x0c' :: acc)
    | 'n' :: rest2 => parseJStr fuel rest2 ('\n' :: acc)
    | 'r' :: rest2 => parseJStr fuel rest2 ('\r' :: acc)
    | 't' :: rest2 => parseJStr fuel rest2 ('\t' :: acc)
    | _ => Option.none
  | fuel + 1, c :: rest, acc =>
    if c.toNat < 32 then Option.none else parseJStr fuel rest (c :: acc)

def digitsToNat (ds : List Char) : Nat :=
  ds.foldl (fun a c => a * 10 + (c.toNat - 48)) 0

/-- Parse a JSON number, following CPython's regex
`(-?(?:0|[1-9]\d*))(\.\d+)?([eE][-+]?\d+)?`: the result is an `int` exactly
when neither the fraction nor the exponent group matched. -/
def parseJNum (cs : List Char) : Option (PyVal × List Char) :=
  let negSplit : Bool × List Char :=
    match cs with
    | '-' :: r => (true, r)
    | _ => (false, cs)
  let neg := negSplit.1
  let cs1 := negSplit.2
  match cs1 with
  | c :: _ =>
    if c.isDigit then
      let ipartSplit : List Char × List Char :=
        match cs1 with
        | '0' :: r => (['0'], r)
        | _ => cs1.span (fun c => c.isDigit)
      let ipart := ipartSplit.1
      let rest1 := ipartSplit.2
      let fracSplit : List Char × List Char :=
        match rest1 with
        | '.' :: r =>
          let ds := r.takeWhile (fun c => c.isDigit)
          if ds.isEmpty then ([], rest1)
          else ('.' :: ds, r.dropWhile (fun c => c.isDigit))
        | _ => ([], rest1)
      let fpart := fracSplit.1
      let rest2 := fracSplit.2
      let expSplit : List Char × List Char :=
        match rest2 with
        | e :: r =>
          if e = 'e' || e = 'E' then
            let signSplit : List Char × List Char :=
              match r with
              | s :: r2 => if s = '+' || s = '-' then ([s], r2) else ([], r)
              | _ => ([], r)
            let ds := signSplit.2.takeWhile (fun c => c.isDigit)
            if ds.isEmpty then ([], rest2)
            else (e :: signSplit.1 ++ ds,
              signSplit.2.dropWhile (fun c => c.isDigit))
          else ([], rest2)
        | _ => ([], rest2)
      let epart := expSplit.1
      let rest3 := expSplit.2
      if fpart.isEmpty && epart.isEmpty then
        let v : Int := Int.ofNat (digitsToNat ipart)
        Option.some (PyVal.int (if neg then -v else v), rest3)
      else
        Option.some
          (PyVal.float (String.mk ((if neg then ['-'] else []) ++ ipart ++ fpart ++ epart)),
            rest3)
    else Option.none
  | [] => Option.none

/-- Parse one JSON value, returning it with the unconsumed remainder.  The
tails of arrays and objects after a comma are parsed by re-entering the
parser on the remainder with the opening bracket prepended; an empty
list/object from such a re-entry is a trailing comma and is rejected. -/
def parseJVal : Nat → List Char → Option (PyVal × List Char)
  | 0, _ => Option.none
  | fuel + 1, cs0 =>
    match skipJsonWs cs0 with
    | [] => Option.none
    | '"' :: rest =>
      match parseJStr (rest.length + 1) rest [] with
      | Option.some (s, rest2) => Option.some (PyVal.str s, rest2)
      | Option.none => Option.none
    | '[' :: rest =>
      match skipJsonWs rest with
      | ']' :: rest2 => Option.some (PyVal.list [], rest2)
      | _ =>
        match parseJVal fuel rest with
        | Option.some (v, rest2) =>
          match skipJsonWs rest2 with
          | ']' :: rest3 => Option.some (PyVal.list [v], rest3)
          | ',' :: rest3 =>
            match parseJVal fuel ('[' :: rest3) with
            | Option.some (PyVal.list (v2 :: vs), rest4) =>
              Option.some (PyVal.list (v :: v2 :: vs), rest4)
            | _ => Option.none
          | _ => Option.none
        | Option.none => Option.none
    | '\x7b' :: rest =>
      match skipJsonWs rest with
      | '\x7d' :: rest2 => Option.some (PyVal.dict [], rest2)
      | '"' :: restK =>
        match parseJStr (restK.length + 1) restK [] with
        | Option.some (k, rest2) =>
          match skipJsonWs rest2 with
          | ':' :: rest3 =>
            match parseJVal fuel rest3 with
            | Option.some (v, rest4) =>
              match skipJsonWs rest4 with
              | '\x7d' :: rest5 => Option.some (PyVal.dict [(k, v)], rest5)
              | ',' :: rest5 =>
                match parseJVal fuel ('\x7b' :: rest5) with
                | Option.some (PyVal.dict (kv2 :: kvs), rest6) =>
                  Option.some (PyVal.dict ((k, v) :: kv2 :: kvs), rest6)
                | _ => Option.none
              | _ => Option.none
            | Option.none => Option.none
          | _ => Option.none
        | Option.none => Option.none
      | _ => Option.none
    | 't' :: rest =>
      if listStarts "rue".data rest then
        Option.some (PyVal.bool true, rest.drop 3)
      else Option.none
    | 'f' :: rest =>
      if listStarts "alse".data rest then
        Option.some (PyVal.bool false, rest.drop 4)
      else Option.none
    | 'n' :: rest =>
      if listStarts "ull".data rest then
        Option.some (PyVal.none, rest.drop 3)
      else Option.none
    | 'N' :: rest =>
      if listStarts "aN".data rest then
        Option.some (PyVal.float "nan", rest.drop 2)
      else Option.none
    | 'I' :: rest =>
      if listStarts "nfinity".data rest then
        Option.some (PyVal.float "inf", rest.drop 7)
      else Option.none
    | '-' :: 'I' :: rest =>
      if listStarts "nfinity".data rest then
        Option.some (PyVal.float "-inf", rest.drop 7)
      else Option.none
    | cs => parseJNum cs

/-- `json.loads`: parse a complete document, rejecting trailing garbage. -/
def json_loads (s : String) : Option PyVal :=
  match parseJVal (2 * s.data.length + 2) s.data with
  | Option.some (v, rest) =>
    if (skipJsonWs rest).isEmpty then Option.some v else Option.none
  | Option.none => Option.none

/-! ## The fenced-JSON regex

`re.search(r'```json\s*(\{.*?\})\s*```', text, re.DOTALL)` appears in
style_emulation_system.py line 51 and url2txts.py line 235.  With DOTALL the
pattern is deterministic: at the leftmost occurrence of the literal
```` ```json ````, the greedy `\s*` must end at the first non-whitespace
character (whitespace cannot start `{`), the non-greedy `(\{.*?\})` ends at
the first `}` that is followed by whitespace and ```` ``` ```` (a backtick is
not whitespace, so the trailing `\s*` is likewise forced), and if no such
closing position exists the search moves to the next occurrence.
`fenceClose` scans for that first admissible `}`; `fenceAt` matches at one
position; `fenceSearch` takes the leftmost match. -/

def fenceClose : List Char → List Char → Option (List Char)
  | [], _ => Option.none
  | c :: rest, acc =>
    if c = '\x7d' && listStarts "```".data (rest.dropWhile isPySpace) then
      Option.some ((c :: acc).reverse)
    else fenceClose rest (c :: acc)

def fenceAt (cs : List Char) : Option (List Char) :=
  if listStarts "```json".data cs then
    match (cs.drop 7).dropWhile isPySpace with
    | '\x7b' :: tail =>
      match fenceClose tail [] with
      | Option.some body => Option.some ('\x7b' :: body)
      | Option.none => Option.none
    | _ => Option.none
  else Option.none

def fenceSearch : List Char → Option (List Char)
  | [] => Option.none
  | c :: cs =>
    match fenceAt (c :: cs) with
    | Option.some body => Option.some body
    | Option.none => fenceSearch cs

/-- The capture group of `re.search(r'```json\s*(\{.*?\})\s*```', s, re.DOTALL)`,
or `none` when there is no match. -/
def extractJsonFence (s : String) : Option String :=
  match fenceSearch s.data with
  | Option.some body => Option.some (String.mk body)
  | Option.none => Option.none

/-! ## `StyleEmulator.analyze_writing_style` (style_emulation_system.py 24-62)

```python
response = self.llm.invoke(analysis_prompt)
try:
    json_match = re.search(r'```json\s*(\{.*?\})\s*```', response.content, re.DOTALL)
    if json_match:
        return json.loads(json_match.group(1))
    else:
        return json.loads(response.content)
except json.JSONDecodeError:
    return {
        "analysis": response.content,
        "raw_response": True
    }
```

The LLM response content is the function's input here; the embedding covers
everything after the `invoke` call. -/

/-- The textual fallback dictionary. -/
def styleFallback (response : String) : PyVal :=
  PyVal.dict [("analysis", PyVal.str response), ("raw_response", PyVal.bool true)]

def analyze_writing_style (response : String) : PyVal :=
  match extractJsonFence response with
  | Option.some block =>
    match json_loads block with
    | Option.some v => v
    | Option.none => styleFallback response
  | Option.none =>
    match json_loads response with
    | Option.some v => v
    | Option.none => styleFallback response

/-! ## `clean_content` (url2txts.py lines 41-48)

```python
content = re.sub(r'^```[a-zA-Z]*\n?', '', content, flags=re.MULTILINE)
content = re.sub(r'\n?```$', '', content, flags=re.MULTILINE)
content = content.strip()
```

`re.sub` scans the original string left to right replacing non-overlapping
matches; with MULTILINE, `^` matches at offset 0 and right after every
newline, `$` at the end and right before every newline.  `cleanSub1` tracks
the line-start flag explicitly (fuelled: every step consumes at least one
character, so `length + 1` fuel is always enough); `cleanSub2` matches the
end-anchored pattern, preferring the greedy optional leading newline. -/

def cleanSub1 : Nat → Bool → List Char → List Char
  | 0, _, cs => cs
  | fuel + 1, atStart, cs =>
    match cs with
    | [] => []
    | c :: rest =>
      if atStart && listStarts "```".data cs then
        let r2 := (cs.drop 3).dropWhile (fun c => isAsciiLetter c)
        match r2 with
        | '\n' :: r3 => cleanSub1 fuel true r3
        | _ => cleanSub1 fuel false r2
      else
        c :: cleanSub1 fuel (c == '\n') rest

/-- Is this position the end of a line (end of string or just before `\n`)? -/
def isLineEnd : List Char → Bool
  | [] => true
  | '\n' :: _ => true
  | _ => false

def cleanSub2 : Nat → List Char → List Char
  | 0, cs => cs
  | fuel + 1, cs =>
    match cs with
    | [] => []
    | '\n' :: '`' :: '`' :: '`' :: rest =>
      if isLineEnd rest then cleanSub2 fuel rest
      else '\n' :: cleanSub2 fuel ('`' :: '`' :: '`' :: rest)
    | '`' :: '`' :: '`' :: rest =>
      if isLineEnd rest then cleanSub2 fuel rest
      else '`' :: cleanSub2 fuel ('`' :: '`' :: rest)
    | c :: rest => c :: cleanSub2 fuel rest

def clean_content (s : String) : String :=
  pyStrip (String.mk
    (cleanSub2 (s.data.length + 1) (cleanSub1 (s.data.length + 1) true s.data)))

/-! ## The agent history model (url2txts.py `extract_content_from_url`)

A history is a list of steps; a step may lack a `result` attribute, have a
non-list one, or hold a list of action results.  An action result is an
object whose attributes `extracted_content`, `action_type`, `result`,
`content`, `text` may each be absent (`Option.none`) or hold a Python value.
`action_type` is compared only against string literals, so it is modelled as
an optional string. -/

structure ActionResult where
  extracted_content : Option PyVal
  action_type : Option String
  result : Option PyVal
  content : Option PyVal
  text : Option PyVal

inductive StepResult where
  | missing : StepResult
  | notList (v : PyVal) : StepResult
  | results (l : List ActionResult) : StepResult

structure HStep where
  result : StepResult

/-- The `for action_result in step.result` iteration domain: empty when the
step has no `result` attribute or it is not a list (the loop is skipped). -/
def stepActionList (st : HStep) : List ActionResult :=
  match st.result with
  | StepResult.results l => l
  | _ => []

/-- First `some` produced by `f` along the list (models a `for` loop whose
body `return`s on a hit and otherwise continues). -/
def firstHit {α β : Type} (f : α → Option β) : List α → Option β
  | [] => Option.none
  | a :: as =>
    match f a with
    | Option.some b => Option.some b
    | Option.none => firstHit f as

/-- Outcome of one loop iteration that can `return`, `continue`, or fall
through to the rest of the loop body. -/
inductive LoopCtl where
  | ret (v : PyVal) : LoopCtl
  | skip : LoopCtl
  | fall : LoopCtl

/-! ### Phase 1 (url2txts.py lines 225-243): fenced JSON in raw logs -/

def phase1AR (ar : ActionResult) : Option PyVal :=
  match ar.extracted_content with
  | Option.none => Option.none
  | Option.some raw =>
    match asPyStr raw with
    | Option.none => Option.none
    | Option.some s =>
      match extractJsonFence s with
      | Option.none => Option.none
      | Option.some block =>
        match json_loads block with
        | Option.none => Option.none
        | Option.some v =>
          if isPyDict v = true ∧ 500 < (pyStr v).length then Option.some v
          else Option.none

def phase1 (steps : List HStep) : Option PyVal :=
  firstHit (fun st => firstHit phase1AR (stepActionList st)) steps.reverse

/-! ### Phase 2 (url2txts.py lines 246-314): extract_content results -/

/-- The summary/error filter of lines 264-273, on the cleaned string: a
`true` verdict makes the loop `continue`, skipping the `action_type` branch
for this action result. -/
def summaryFilterA (content : String) : Bool :=
  pyStartsWith content "The task was successfully completed" ||
  pyStartsWith content "Successfully extracted" ||
  pyStartsWith content "The main content of" ||
  pyStartsWith content "The page" ||
  pyIn "task completed" (pyLower content) ||
  pyIn "was extracted successfully" (pyLower content) ||
  pyIn "404 error" (pyLower content) ||
  pyIn "does not exist" (pyLower content) ||
  pyIn "cannot be completed" (pyLower content) ||
  decide (content.length < 200)

/-- Lines 264-288: the string case of the `extracted_content` branch, on the
already-cleaned content. -/
def phase2strCase (content : String) : LoopCtl :=
  if summaryFilterA content = true then
    LoopCtl.skip
  else
    match json_loads content with
    | Option.some parsed =>
      if isPyDict parsed = true ∧ 500 < (pyStr parsed).length then
        LoopCtl.ret parsed
      else if 500 < content.length then LoopCtl.ret (PyVal.str content)
      else LoopCtl.fall
    | Option.none =>
      if 500 < content.length then LoopCtl.ret (PyVal.str content)
      else LoopCtl.fall

def phase2branchA (ar : ActionResult) : LoopCtl :=
  match ar.extracted_content with
  | Option.none => LoopCtl.fall
  | Option.some raw =>
    if pyTruthy raw = true then
      match asPyStr raw with
      | Option.some s => phase2strCase (clean_content s)
      | Option.none =>
        if (isPyDict raw = true ∨ isPyList raw = true) ∧ 200 < (pyStr raw).length then
          LoopCtl.ret raw
        else LoopCtl.fall
    else LoopCtl.fall

/-- Lines 301-314: the string case of the `action_type == 'extract_content'`
branch, on the already-cleaned content.  Note that this branch applies no
summary filtering: only a JSON attempt and the length check
`len(str(content)) > 200`. -/
def phase2strCaseB (content : String) : Option PyVal :=
  match json_loads content with
  | Option.some parsed =>
    if isPyDict parsed = true ∧ 500 < (pyStr parsed).length then
      Option.some parsed
    else if pyTruthy (PyVal.str content) = true ∧ 200 < content.length then
      Option.some (PyVal.str content)
    else Option.none
  | Option.none =>
    if pyTruthy (PyVal.str content) = true ∧ 200 < content.length then
      Option.some (PyVal.str content)
    else Option.none

def phase2branchB (ar : ActionResult) : Option PyVal :=
  if ar.action_type = Option.some "extract_content" then
    match ar.result with
    | Option.none => Option.none
    | Option.some raw =>
      match asPyStr raw with
      | Option.some s => phase2strCaseB (clean_content s)
      | Option.none =>
        if pyTruthy raw = true ∧ 200 < (pyStr raw).length then Option.some raw
        else Option.none
  else Option.none

def phase2AR (ar : ActionResult) : Option PyVal :=
  match phase2branchA ar with
  | LoopCtl.ret v => Option.some v
  | LoopCtl.skip => Option.none
  | LoopCtl.fall => phase2branchB ar

def phase2 (steps : List HStep) : Option PyVal :=
  firstHit (fun st => firstHit phase2AR (stepActionList st)) steps.reverse

/-! ### Phase 3 (url2txts.py lines 317-344): other substantial content -/

/-- The summary filter of lines 336-342. -/
def summaryFilterC (s : String) : Bool :=
  pyStartsWith s "The task was successfully completed" ||
  pyStartsWith s "Successfully" ||
  pyStartsWith s "The page" ||
  pyStartsWith s "The main content of" ||
  pyIn "task completed" (pyLower s) ||
  pyIn "was extracted successfully" (pyLower s) ||
  pyIn "extracted" (String.mk ((pyLower s).data.take 100))

/-- Lines 334-344: keep a truthy cleaned string longer than 500 characters
that survives `summaryFilterC`. -/
def phase3strCase (content : PyVal) : Option PyVal :=
  match asPyStr content with
  | Option.some s =>
    if pyTruthy content = true ∧ 500 < s.length then
      if summaryFilterC s = true then Option.none
      else Option.some (PyVal.str s)
    else Option.none
  | Option.none => Option.none

def phase3attr (v : Option PyVal) : Option PyVal :=
  match v with
  | Option.none => Option.none
  | Option.some raw =>
    match asPyStr raw with
    | Option.some s => phase3strCase (PyVal.str (clean_content s))
    | Option.none => phase3strCase raw

def phase3AR (ar : ActionResult) : Option PyVal :=
  if ar.action_type = Option.some "done" then Option.none
  else
    match phase3attr ar.content with
    | Option.some v => Option.some v
    | Option.none =>
      match phase3attr ar.text with
      | Option.some v => Option.some v
      | Option.none => phase3attr ar.result

def phase3 (steps : List HStep) : Option PyVal :=
  firstHit (fun st => firstHit phase3AR (stepActionList st)) steps.reverse

/-- `extract_content_from_url` (url2txts.py lines 209-359), for a run of the
agent that completes without raising: the three scan phases over the step
history in order, `None` when none of them hits. -/
def extract_content_from_url (steps : List HStep) : Option PyVal :=
  match phase1 steps with
  | Option.some v => Option.some v
  | Option.none =>
    match phase2 steps with
    | Option.some v => Option.some v
    | Option.none => phase3 steps

/-- A 210-character agent-summary string. -/
def badSummary : String := "The page " ++ String.mk (List.replicate 201 'a')

def cexAR : ActionResult :=
  { extracted_content := Option.some PyVal.none,
    action_type := Option.some "extract_content",
    result := Option.some (PyVal.str badSummary),
    content := Option.none,
    text := Option.none }

def cexSteps : List HStep := [⟨StepResult.results [cexAR]⟩]

/-! ## The MentorMirror pipeline (mentor_mirror_pipeline.py)

External effects are captured by a `PipelineOracle`: the outcomes of the LLM
calls (`Except Unit _`, error meaning the call raised), the random topic
choice, the clock values, the keys of the mentors database on disk, the
per-path verdict of `validate_json_file` (which re-reads the file from disk,
so its outcome is environmental), and whether `save_mentors_db` succeeds.
File writes themselves are modelled as succeeding and are recorded, in
order, in the state's write log `fs`; a write that raises would be caught by
the surrounding `except` like an LLM error.  The mutable `MentorMirror`
state is `output_dir` plus the write log and the list of session directories
created by `setup_session`. -/

structure PipelineOracle where
  /-- Outcome of `load_mentor_content` (raises when the file is missing). -/
  loadContent : Except Unit String
  /-- Outcome of `style_emulator.infer_author_name`. -/
  inferResult : Except Unit String
  /-- Keys of the mentors database loaded by `load_mentors_db`. -/
  mentorsDb : List String
  /-- Outcome of `style_emulator.analyze_writing_style`. -/
  analyzeResult : Except Unit PyVal
  /-- Outcome of `style_emulator.create_mentor_style_prompts`. -/
  promptsResult : Except Unit PyVal
  /-- Outcome of `self.llm.invoke(quote_prompt).content`. -/
  quoteResult : Except Unit String
  /-- Outcome of `self.llm.invoke(action_prompt).content`. -/
  actionResult : Except Unit String
  /-- Outcome of `self.llm.invoke(reflection_prompt).content`. -/
  reflectionResult : Except Unit String
  /-- Index chosen by `random.choice(topics)`. -/
  randomTopic : Fin 5
  /-- `datetime.now().strftime("%Y-%m-%d_%H-%M-%S")` in `setup_session`. -/
  timestamp : String
  /-- `datetime.now().strftime("%Y-%m-%d")` in `generate_daily_mentorgram`. -/
  date : String
  /-- `datetime.now().isoformat()` in `create_session_summary`. -/
  isoDate : String
  /-- Verdict of `validate_json_file` on each path (it re-reads the disk). -/
  validateOk : String → Bool
  /-- Whether `save_mentors_db` succeeds. -/
  saveDbOk : Bool

structure PipelineState where
  output_dir : Option String
  /-- Write log: every `json.dump(..., open(path, 'w'))`, in program order. -/
  fs : List String
  /-- Session directories created by `setup_session`. -/
  sessionDirs : List String

def initState : PipelineState :=
  { output_dir := Option.none, fs := [], sessionDirs := [] }

def writeFile (st : PipelineState) (path : String) : PipelineState :=
  { st with fs := st.fs ++ [path] }

/-- `os.path.join(SESSIONS_PATH, f"session_{safe_filename(mentor_name)}_{timestamp}")`
(mentor_mirror_pipeline.py line 109). -/
def sessionPath (mentor_name timestamp : String) : String :=
  "mentors/sessions/session_" ++ safe_filename mentor_name ++ "_" ++ timestamp

/-- `os.path.join(STYLE_DB_PATH, f"{safe_name}.json")` (line 155). -/
def centralStylePath (mentor_name : String) : String :=
  "mentors/styles/" ++ safe_filename mentor_name ++ ".json"

/-- `setup_session` (lines 106-111): create the session directory and store
it as `self.output_dir`. -/
def setup_session (st : PipelineState) (mentor_name : String)
    (o : PipelineOracle) : PipelineState :=
  let dir := sessionPath mentor_name o.timestamp
  { output_dir := Option.some dir, fs := st.fs,
    sessionDirs := st.sessionDirs ++ [dir] }

/-- `infer_author_from_content` (lines 120-137): on success, uniquify a
result that lowercases to `"unknown author"`; on an exception, fall back to a
unique `"Unknown Author k"`. -/
def infer_author_from_content (o : PipelineOracle) : String :=
  match o.inferResult with
  | Except.ok name =>
    if pyLower name = "unknown author" then
      get_unique_author_name name o.mentorsDb
    else name
  | Except.error _ => get_unique_author_name "Unknown Author" o.mentorsDb

/-- `analyze_mentor_style` (lines 139-169): write the analysis to the session
directory (when set) and to the central store, then validate the central
file; an exception or a failed validation yields `None`. -/
def analyze_mentor_style (st : PipelineState) (o : PipelineOracle)
    (mentor_name : String) : PipelineState × Option PyVal :=
  match o.analyzeResult with
  | Except.error _ => (st, Option.none)
  | Except.ok style =>
    let st1 :=
      match st.output_dir with
      | Option.some dir => writeFile st (dir ++ "/style_analysis.json")
      | Option.none => st
    let central := centralStylePath mentor_name
    let st2 := writeFile st1 central
    if o.validateOk central then (st2, Option.some style)
    else (st2, Option.none)

/-- `generate_mentor_prompts` (lines 171-191): when `output_dir` is unset the
function falls off the end of the `try` block and implicitly returns `None`,
even when prompt generation succeeded. -/
def generate_mentor_prompts (st : PipelineState) (o : PipelineOracle)
    (style : PyVal) (mentor_name : String) : PipelineState × Option PyVal :=
  match o.promptsResult with
  | Except.error _ => (st, Option.none)
  | Except.ok prompts =>
    match st.output_dir with
    | Option.some dir =>
      let path := dir ++ "/mentor_prompts.json"
      let st1 := writeFile st path
      if o.validateOk path then (st1, Option.some prompts)
      else (st1, Option.none)
    | Option.none => (st, Option.none)

def mentorgramTopics (i : Fin 5) : String :=
  if i.1 = 0 then "building good habits"
  else if i.1 = 1 then "making hard decisions"
  else if i.1 = 2 then "personal growth"
  else if i.1 = 3 then "overcoming challenges"
  else "finding clarity"

/-- The three LLM invocations of `generate_daily_mentorgram`; any raised
exception aborts the step before the mentorgram is assembled. -/
def llm3 (o : PipelineOracle) : Option (String × String × String) :=
  match o.quoteResult, o.actionResult, o.reflectionResult with
  | Except.ok q, Except.ok a, Except.ok r => Option.some (q, a, r)
  | _, _, _ => Option.none

/-- `generate_daily_mentorgram` (lines 193-240).  The mentorgram dictionary
is modelled as an association list in insertion order; `topic = None` or
`topic = ""` (both falsy) selects a random topic.  As with the prompts, an
unset `output_dir` means the function implicitly returns `None`. -/
def generate_daily_mentorgram (st : PipelineState) (o : PipelineOracle)
    (style : PyVal) (mentor_name : String) (topic : Option String) :
    PipelineState × Option (List (String × String)) :=
  let topicVal :=
    match topic with
    | Option.some t => if t = "" then mentorgramTopics o.randomTopic else t
    | Option.none => mentorgramTopics o.randomTopic
  match llm3 o with
  | Option.none => (st, Option.none)
  | Option.some (q, a, r) =>
    let mentorgram : List (String × String) :=
      [("date", o.date), ("mentor", mentor_name), ("topic", topicVal),
        ("quote", pyStrip q), ("action", pyStrip a),
        ("reflection", pyStrip r)]
    match st.output_dir with
    | Option.some dir =>
      let path := dir ++ "/mentorgram_" ++ o.date ++ ".json"
      let st1 := writeFile st path
      if o.validateOk path then (st1, Option.some mentorgram)
      else (st1, Option.none)
    | Option.none => (st, Option.none)

/-- `dict.get(key, default)` on a style analysis. -/
def pyDictGet (v : PyVal) (key : String) (dfl : PyVal) : PyVal :=
  match v with
  | PyVal.dict entries =>
    match entries.find? (fun kv => kv.1 = key) with
    | Option.some kv => kv.2
    | Option.none => dfl
  | _ => dfl

/-- `mentorgram['date']`: raises `KeyError` when absent. -/
def mgLookup (mg : List (String × String)) (key : String) : Option String :=
  match mg.find? (fun kv => kv.1 = key) with
  | Option.some kv => Option.some kv.2
  | Option.none => Option.none

def mentorgramToPy (mg : List (String × String)) : PyVal :=
  PyVal.dict (mg.map (fun kv => (kv.1, PyVal.str kv.2)))

/-- `create_session_summary` (lines 242-287).  A `KeyError` on
`mentorgram['date']` is caught by the step's `except`; with `output_dir`
unset the function implicitly returns `None`. -/
def create_session_summary (st : PipelineState) (o : PipelineOracle)
    (mentor_name : String) (style : PyVal) (mg : List (String × String))
    (prompts : PyVal) : PipelineState × Option PyVal :=
  match mgLookup mg "date" with
  | Option.none => (st, Option.none)
  | Option.some date =>
    let summary := PyVal.dict
      [("session_info", PyVal.dict
          [("mentor", PyVal.str mentor_name),
            ("date", PyVal.str o.isoDate),
            ("output_directory",
              match st.output_dir with
              | Option.some d => PyVal.str d
              | Option.none => PyVal.none)]),
        ("style_highlights", PyVal.dict
          [("tone", pyDictGet style "Tone & Voice" (PyVal.str "Not analyzed")),
            ("key_themes", pyDictGet style "Content Themes" (PyVal.list [])),
            ("signature_elements",
              pyDictGet style "Unique Stylistic Elements" (PyVal.dict []))]),
        ("daily_mentorgram", mentorgramToPy mg),
        ("files_generated", PyVal.list
          [PyVal.str "style_analysis.json", PyVal.str "mentor_prompts.json",
            PyVal.str ("mentorgram_" ++ date ++ ".json"),
            PyVal.str "session_summary.json"]),
        ("validation_status", PyVal.dict
          [("style_analysis", PyVal.str "✅ Valid"),
            ("mentor_prompts", PyVal.str "✅ Valid"),
            ("mentorgram", PyVal.str "✅ Valid"),
            ("session_summary", PyVal.str "✅ Valid")])]
    match st.output_dir with
    | Option.some dir =>
      let path := dir ++ "/session_summary.json"
      let st1 := writeFile st path
      if o.validateOk path then (st1, Option.some summary)
      else (st1, Option.none)
    | Option.none => (st, Option.none)

/-- `update_mentors_database` (lines 289-313): rewrite the mentors database;
returns whether `save_mentors_db` succeeded. -/
def update_mentors_database (st : PipelineState) (o : PipelineOracle) :
    PipelineState × Bool :=
  (st, o.saveDbOk)

structure RunResults where
  success : Bool
  mentor_name : Option String
  errors : List String
  completed_steps : List String

/-- The fixed step order of `run_complete_analysis`. -/
def stepOrder : List String :=
  ["author_inference", "style_analysis", "mentor_prompts", "mentorgram",
    "session_summary", "database_update"]

/-- `run_complete_analysis` (lines 315-380), returning the results dictionary
together with the final file-system state.  A failure of a step short of the
session summary returns immediately; a database update failure only records
an error — `success` is still set to `True` afterwards. -/
def run_complete_analysis (o : PipelineOracle) : RunResults × PipelineState :=
  match o.loadContent with
  | Except.error _ =>
    ({ success := false, mentor_name := Option.none,
        errors := ["Critical error"], completed_steps := [] }, initState)
  | Except.ok _content =>
    let mentor_name := infer_author_from_content o
    let st1 := setup_session initState mentor_name o
    match analyze_mentor_style st1 o mentor_name with
    | (st2, Option.none) =>
      ({ success := false, mentor_name := Option.some mentor_name,
          errors := ["Style analysis failed"],
          completed_steps := ["author_inference"] }, st2)
    | (st2, Option.some style) =>
      match generate_mentor_prompts st2 o style mentor_name with
      | (st3, Option.none) =>
        ({ success := false, mentor_name := Option.some mentor_name,
            errors := ["Mentor prompts generation failed"],
            completed_steps := ["author_inference", "style_analysis"] }, st3)
      | (st3, Option.some prompts) =>
        match generate_daily_mentorgram st3 o style mentor_name Option.none with
        | (st4, Option.none) =>
          ({ success := false, mentor_name := Option.some mentor_name,
              errors := ["Mentor-gram generation failed"],
              completed_steps :=
                ["author_inference", "style_analysis", "mentor_prompts"] }, st4)
        | (st4, Option.some mentorgram) =>
          match create_session_summary st4 o mentor_name style mentorgram prompts with
          | (st5, Option.none) =>
            ({ success := false, mentor_name := Option.some mentor_name,
                errors := ["Session summary creation failed"],
                completed_steps :=
                  ["author_inference", "style_analysis", "mentor_prompts",
                    "mentorgram"] }, st5)
          | (st5, Option.some _summary) =>
            match update_mentors_database st5 o with
            | (st6, true) =>
              ({ success := true, mentor_name := Option.some mentor_name,
                  errors := [],
                  completed_steps :=
                    ["author_inference", "style_analysis", "mentor_prompts",
                      "mentorgram", "session_summary", "database_update"] }, st6)
            | (st6, false) =>
              ({ success := true, mentor_name := Option.some mentor_name,
                  errors := ["Database update failed"],
                  completed_steps :=
                    ["author_inference", "style_analysis", "mentor_prompts",
                      "mentorgram", "session_summary"] }, st6)

/-- The five artifact files of one run, in write order. -/
def artifactPaths (o : PipelineOracle) : List String :=
  let m := infer_author_from_content o
  let dir := sessionPath m o.timestamp
  [dir ++ "/style_analysis.json", centralStylePath m,
    dir ++ "/mentor_prompts.json", dir ++ "/mentorgram_" ++ o.date ++ ".json",
    dir ++ "/session_summary.json"]

/-- An oracle on which every external call succeeds and every validation
passes. -/
def orOk : PipelineOracle :=
  { loadContent := Except.ok "content",
    inferResult := Except.ok "Sam Altman",
    mentorsDb := [],
    analyzeResult := Except.ok (PyVal.dict [("Tone & Voice", PyVal.str "calm")]),
    promptsResult := Except.ok (PyVal.dict [("daily_reflection", PyVal.str "p")]),
    quoteResult := Except.ok "q",
    actionResult := Except.ok "a",
    reflectionResult := Except.ok "r",
    randomTopic := ⟨0, by omega⟩,
    timestamp := "2025-01-01_00-00-00",
    date := "2025-01-01",
    isoDate := "2025-01-01T00:00:00",
    validateOk := fun _ => true,
    saveDbOk := true }

/-- Same, but `validate_json_file` fails on every path. -/
def orNoValidate : PipelineOracle :=
  { orOk with validateOk := fun _ => false }

/-! ## The GUI process machine (mentor_mirror_gui.py)

`MentorMirrorGUI` tracks its subprocesses in `self.processes`.  Following
Qt's documented `QProcess` semantics, a process is `Starting` from
`process.start(...)` until the asynchronous startup notification arrives
(then `Running`), and `finished` is emitted when a running process exits,
upon which the directly-connected `handle_finish` slot removes it from the
tracking list; a process that fails to start goes to `NotRunning` without a
`finished` signal.  The events below are the GUI's slots, translated from
the source:

* `run_script` (lines 788-827): returns immediately when any tracked process
  is in the `Running` state (the guard at line 790 checks `Running` only);
  otherwise it appends a new process, starts it (`Starting`), disables the
  action buttons and enables the cancel button.  It is invoked from the two
  action buttons (enabled ones only) and from `on_scraping_finished`'s chain
  into `run_complete_analysis`.
* `cancel_current_operation` (lines 379-391): kills every tracked process in
  the `Running` state (a kill is asynchronous: the `QProcess` state changes
  only when the death is detected, which the `exit`/`finished` events model),
  re-enables the action buttons and disables the cancel button.  A process
  still in `Starting` is not killed.
* `handle_finish` (lines 812-819): removes the finished process, disables
  the cancel button, and then either re-enables the buttons or (for the
  scraping chain) calls `run_script` again.

The text-to-speech `TTSWorker` is a `QThread`, not a tracked `QProcess`, and
is outside the claim. -/

inductive PState where
  | starting : PState
  | running : PState
  | notRunning : PState
deriving DecidableEq

structure GuiState where
  procs : List PState
  buttonsEnabled : Bool
  cancelEnabled : Bool
deriving DecidableEq

def mkGui (ps : List PState) (b c : Bool) : GuiState :=
  { procs := ps, buttonsEnabled := b, cancelEnabled := c }

def initGui : GuiState := mkGui [] true false

/-- Number of tracked processes in the `Running` state. -/
def countRunning (s : GuiState) : Nat :=
  (s.procs.filter (fun p => p == PState.running)).length

/-- `run_script` with Qt's asynchronous startup: the new process is
`Starting` until its startup notification arrives. -/
def runScript (s : GuiState) : GuiState :=
  if s.procs.any (fun p => p == PState.running) then s
  else mkGui (s.procs ++ [PState.starting]) false true

inductive GuiStep : GuiState → GuiState → Prop where
  | clickStart (s : GuiState) :
      s.buttonsEnabled = true → GuiStep s (runScript s)
  | clickCancel (s : GuiState) :
      s.cancelEnabled = true → GuiStep s (mkGui s.procs true false)
  | startConfirmed (s : GuiState) (i : Nat) :
      s.procs.get? i = Option.some PState.starting →
      GuiStep s (mkGui (s.procs.set i PState.running) s.buttonsEnabled
        s.cancelEnabled)
  | startFailed (s : GuiState) (i : Nat) :
      s.procs.get? i = Option.some PState.starting →
      GuiStep s (mkGui (s.procs.set i PState.notRunning) s.buttonsEnabled
        s.cancelEnabled)
  | procFinishedEnable (s : GuiState) (i : Nat) :
      s.procs.get? i = Option.some PState.running →
      GuiStep s (mkGui (s.procs.eraseIdx i) true false)
  | procFinishedChain (s : GuiState) (i : Nat) :
      s.procs.get? i = Option.some PState.running →
      GuiStep s (runScript (mkGui (s.procs.eraseIdx i) s.buttonsEnabled false))

inductive GuiReach : GuiState → Prop where
  | init : GuiReach initGui
  | step {s t : GuiState} : GuiReach s → GuiStep s t → GuiReach t

/-- The reachable state with two simultaneously `Running` processes. -/
def badGui : GuiState := mkGui [PState.running, PState.running] false true

/-! With instantaneous startup (no `Starting` window), the guard is
sufficient: the synchronous machine below is the claim's implicit model, and
its invariant holds. -/

/-- `run_script` when a started process is immediately `Running`. -/
def runScriptSync (s : GuiState) : GuiState :=
  if s.procs.any (fun p => p == PState.running) then s
  else mkGui (s.procs ++ [PState.running]) false true

inductive GuiStepSync : GuiState → GuiState → Prop where
  | clickStart (s : GuiState) :
      s.buttonsEnabled = true → GuiStepSync s (runScriptSync s)
  | clickCancel (s : GuiState) :
      s.cancelEnabled = true → GuiStepSync s (mkGui s.procs true false)
  | procFinishedEnable (s : GuiState) (i : Nat) :
      s.procs.get? i = Option.some PState.running →
      GuiStepSync s (mkGui (s.procs.eraseIdx i) true false)
  | procFinishedChain (s : GuiState) (i : Nat) :
      s.procs.get? i = Option.some PState.running →
      GuiStepSync s
        (runScriptSync (mkGui (s.procs.eraseIdx i) s.buttonsEnabled false))

inductive GuiReachSync : GuiState → Prop where
  | init : GuiReachSync initGui
  | step {s t : GuiState} : GuiReachSync s → GuiStepSync s t → GuiReachSync t

example : safe_filename "Marcus Aurelius" = "marcus_aurelius" := by decide

example : safe_filename "Unknown Author 3" = "unknown_author_3" := by decide

example : safe_filename "A!b C-d_9" = "ab_c-d_9" := by decide

theorem isSafeChar_toLower {c : Char} (h : isSafeChar c = true) :
    c.toLower = c := by
  simp only [isSafeChar, Bool.or_eq_true, Bool.and_eq_true, beq_iff_eq,
    decide_eq_true_eq] at h
  simp only [Char.toLower]
  rw [if_neg]
  rcases h with ((h | h) | h) | h <;> omega

theorem isSafeChar_not_space {c : Char} (h : isSafeChar c = true) :
    c ≠ ' ' := by
  intro hc; subst hc; simp [isSafeChar] at h

/-- Every character of a `safe_filename` output lies in `[a-z0-9_\-]`. -/
theorem safe_filename_chars (name : String) :
    ∀ c ∈ (safe_filename name).data, isSafeChar c = true := by
  intro c hc
  simp only [safe_filename] at hc
  exact (List.mem_filter.mp hc).2

/-- `safe_filename` is idempotent. -/
theorem safe_filename_idem (name : String) :
    safe_filename (safe_filename name) = safe_filename name := by
  simp only [safe_filename]
  congr 1
  set L := ((name.data.map Char.toLower).map
      (fun c => if c = ' ' then '_' else c)).filter (fun c => isSafeChar c)
    with hL
  have hmem : ∀ c ∈ L, isSafeChar c = true := by
    intro c hc
    rw [hL] at hc
    exact (List.mem_filter.mp hc).2
  rw [List.map_map]
  have hmap : L.map ((fun c => if c = ' ' then '_' else c) ∘ Char.toLower) = L := by
    conv_rhs => rw [← List.map_id L]
    apply List.map_congr_left
    intro c hc
    have h := hmem c hc
    simp only [Function.comp, id]
    rw [isSafeChar_toLower h, if_neg (isSafeChar_not_space h)]
  rw [hmap, List.filter_eq_self.mpr hmem]

theorem decDigitChar_toNat {d : Nat} (h : d < 10) :
    (decDigitChar d).toNat = 48 + d := by
  interval_cases d <;> decide

example : natRepr 0 = "0" := by decide

example : natRepr 1 = "1" := by decide

example : natRepr 107 = "107" := by decide

theorem natReprCore_append (fuel : Nat) :
    ∀ n acc, natReprCore fuel n acc = natReprCore fuel n [] ++ acc := by
  induction fuel with
  | zero => intro n acc; rfl
  | succ fuel ih =>
    intro n acc
    by_cases h : n < 10
    · simp only [natReprCore, if_pos h]
      rfl
    · simp only [natReprCore, if_neg h]
      rw [ih (n / 10) (decDigitChar (n % 10) :: acc),
        ih (n / 10) (decDigitChar (n % 10) :: [])]
      simp

theorem natReprCore_digits (fuel : Nat) :
    ∀ n c, c ∈ natReprCore fuel n [] → 48 ≤ c.toNat ∧ c.toNat ≤ 57 := by
  induction fuel with
  | zero => intro n c hc; simp [natReprCore] at hc
  | succ fuel ih =>
    intro n c hc
    by_cases h : n < 10
    · simp only [natReprCore, if_pos h] at hc
      rcases List.mem_singleton.mp hc with rfl
      rw [decDigitChar_toNat (Nat.mod_lt _ (by omega))]
      omega
    · simp only [natReprCore, if_neg h] at hc
      rw [natReprCore_append fuel (n / 10) (decDigitChar (n % 10) :: [])] at hc
      rcases List.mem_append.mp hc with hmem | hmem
      · exact ih (n / 10) c hmem
      · rcases List.mem_singleton.mp hmem with rfl
        rw [decDigitChar_toNat (Nat.mod_lt _ (by omega))]
        omega

theorem natRepr_digits (n : Nat) :
    ∀ c ∈ (natRepr n).data, 48 ≤ c.toNat ∧ c.toNat ≤ 57 :=
  fun c hc => natReprCore_digits (n + 1) n c hc

theorem natReprCore_foldl (fuel : Nat) :
    ∀ n, n < fuel → ∀ i : Nat,
      (natReprCore fuel n []).foldl (fun a c => a * 10 + (c.toNat - 48)) i =
        i * 10 ^ (natReprCore fuel n []).length + n := by
  induction fuel with
  | zero => intro n hn; omega
  | succ fuel ih =>
    intro n hn i
    by_cases h : n < 10
    · simp only [natReprCore, if_pos h, List.foldl_cons, List.foldl_nil,
        List.length_cons, List.length_nil]
      rw [decDigitChar_toNat (Nat.mod_lt _ (by omega)), Nat.mod_eq_of_lt h,
        pow_one]
      omega
    · simp only [natReprCore, if_neg h]
      rw [natReprCore_append fuel (n / 10) (decDigitChar (n % 10) :: []),
        List.foldl_append, List.length_append]
      simp only [List.foldl_cons, List.foldl_nil, List.length_cons,
        List.length_nil]
      have hfuel : n / 10 < fuel := by omega
      rw [ih (n / 10) hfuel i, decDigitChar_toNat (Nat.mod_lt _ (by omega)),
        pow_succ, ← mul_assoc]
      generalize i * 10 ^ (natReprCore fuel (n / 10) []).length = m
      omega

theorem natRepr_injective : Function.Injective natRepr := by
  intro m n h
  have hdata : natReprCore (m + 1) m [] = natReprCore (n + 1) n [] :=
    congrArg String.data h
  have hm := natReprCore_foldl (m + 1) m (by omega) 0
  have hn := natReprCore_foldl (n + 1) n (by omega) 0
  rw [hdata] at hm
  rw [hm] at hn
  omega

/-- Digit-only character lists pass through the `safe_filename` pipeline
unchanged. -/
theorem digits_safe_pipeline (cs : List Char)
    (h : ∀ c ∈ cs, 48 ≤ c.toNat ∧ c.toNat ≤ 57) :
    ((cs.map Char.toLower).map (fun c => if c = ' ' then '_' else c)).filter
      (fun c => isSafeChar c) = cs := by
  induction cs with
  | nil => rfl
  | cons c cs ih =>
    have hc := h c (List.mem_cons_self c cs)
    have hsafe : isSafeChar c = true := by
      simp only [isSafeChar, Bool.or_eq_true, Bool.and_eq_true, beq_iff_eq,
        decide_eq_true_eq]
      omega
    simp only [List.map_cons, List.filter_cons]
    rw [isSafeChar_toLower hsafe, if_neg (isSafeChar_not_space hsafe), hsafe,
      ih (fun c hc => h c (List.mem_cons_of_mem _ hc))]
    simp

theorem safe_unknownCandidate (k : Nat) :
    safe_filename (unknownCandidate k) =
      String.mk ("unknown_author_".data ++ (natRepr k).data) := by
  have h1 : ((("Unknown Author ".data.map Char.toLower).map
      (fun c => if c = ' ' then '_' else c)).filter (fun c => isSafeChar c)) =
      "unknown_author_".data := by decide
  simp only [safe_filename, unknownCandidate, String.data_append]
  rw [List.map_append, List.map_append, List.filter_append, h1,
    digits_safe_pipeline (natRepr k).data (natRepr_digits k)]

theorem safe_unknownCandidate_injective :
    Function.Injective (fun k => safe_filename (unknownCandidate k)) := by
  intro m n h
  simp only [safe_unknownCandidate] at h
  have hdata := congrArg String.data h
  simp only at hdata
  have := List.append_cancel_left hdata
  exact natRepr_injective (congrArg String.mk this)

/-- Pigeonhole: among the first `db.length + 1` candidates, at least one safe
name is not a key of `db`. -/
theorem exists_free_candidate (db : List String) :
    ∃ j < db.length + 1, safe_filename (unknownCandidate (1 + j)) ∉ db := by
  by_contra hall
  push_neg at hall
  set M : List String :=
    (List.range (db.length + 1)).map
      (fun j => safe_filename (unknownCandidate (1 + j)))
    with hM
  have hnodup : M.Nodup := by
    rw [hM]
    refine List.Nodup.map_on ?_ (List.nodup_range _)
    intro a _ b _ hab
    have := safe_unknownCandidate_injective hab
    omega
  have hsub : M ⊆ db := by
    intro x hx
    rw [hM] at hx
    rcases List.mem_map.mp hx with ⟨j, hj, rfl⟩
    exact hall j (List.mem_range.mp hj)
  have hlen : M.length ≤ db.length :=
    (List.subperm_of_subset hnodup hsub).length_le
  rw [hM, List.length_map, List.length_range] at hlen
  omega

theorem uniqueLoop_finds (db : List String) :
    ∀ fuel k, (∃ j < fuel, safe_filename (unknownCandidate (k + j)) ∉ db) →
      ∃ j, safe_filename (unknownCandidate (k + j)) ∉ db ∧
        (∀ i < j, safe_filename (unknownCandidate (k + i)) ∈ db) ∧
        uniqueLoop db fuel k = unknownCandidate (k + j) := by
  intro fuel
  induction fuel with
  | zero =>
    intro k ⟨j, hj, _⟩
    omega
  | succ fuel ih =>
    intro k hex
    by_cases hk : safe_filename (unknownCandidate k) ∈ db
    · have hex' : ∃ j < fuel, safe_filename (unknownCandidate (k + 1 + j)) ∉ db := by
        rcases hex with ⟨j, hj, hfree⟩
        match j, hj, hfree with
        | 0, _, hfree => exact absurd hk (by simpa using hfree)
        | j + 1, hj, hfree =>
          exact ⟨j, by omega, by
            have heq : k + 1 + j = k + (j + 1) := by omega
            rw [heq]; exact hfree⟩
      rcases ih (k + 1) hex' with ⟨j, hfree, hbefore, heq⟩
      refine ⟨j + 1, ?_, ?_, ?_⟩
      · have h : k + (j + 1) = k + 1 + j := by omega
        rw [h]; exact hfree
      · intro i hi
        match i, hi with
        | 0, _ => simpa using hk
        | i + 1, hi =>
          have h : k + (i + 1) = k + 1 + i := by omega
          rw [h]; exact hbefore i (by omega)
      · rw [uniqueLoop, if_pos hk, heq]
        congr 1
        omega
    · exact ⟨0, by simpa using hk, by omega, by rw [uniqueLoop, if_neg hk]; simp⟩

/-- C10: for every string `s`, the `safe_filename` function shared by the
pipeline (mentor_mirror_pipeline.py lines 32-35) and the GUI
(mentor_mirror_gui.py lines 41-44) returns a string containing only lowercase
ASCII letters, digits, underscores, and hyphens, and it is idempotent:
`safe_filename (safe_filename s) = safe_filename s`. -/
theorem claim_C10_safe_filename (s : String) :
    (∀ c ∈ (safe_filename s).data, isSafeChar c = true) ∧
    safe_filename (safe_filename s) = safe_filename s :=
  ⟨safe_filename_chars s, safe_filename_idem s⟩

theorem claim_C10_safe_filename_witness :
    'a' ∈ (safe_filename "A b!").data ∧ isSafeChar 'a' = true ∧
      safe_filename (safe_filename "A b!") = safe_filename "A b!" :=
  ⟨by decide, (claim_C10_safe_filename "A b!").1 'a' (by decide),
    (claim_C10_safe_filename "A b!").2⟩

/-- C9: for every finite mentors database (modelled by its list of keys) and
every `base_name`: if `base_name` lowercased is not `"unknown author"`,
`get_unique_author_name` returns `base_name` unchanged; otherwise it terminates
and returns `"Unknown Author k"` for the least positive integer `k` such that
`safe_filename ("Unknown Author k")` is not a key of the database, so the
returned name's safe filename never collides with an existing database key. -/
theorem claim_C9_get_unique_author_name (base : String) (db : List String) :
    (pyLower base ≠ "unknown author" → get_unique_author_name base db = base) ∧
    (pyLower base = "unknown author" →
      ∃ k, 0 < k ∧
        get_unique_author_name base db = unknownCandidate k ∧
        safe_filename (unknownCandidate k) ∉ db ∧
        (∀ i, 0 < i → i < k → safe_filename (unknownCandidate i) ∈ db) ∧
        safe_filename (get_unique_author_name base db) ∉ db) := by
  constructor
  · intro h
    rw [get_unique_author_name, if_pos h]
  · intro h
    have hrun : get_unique_author_name base db = uniqueLoop db (db.length + 1) 1 := by
      rw [get_unique_author_name, if_neg (fun hne => hne h)]
    rcases exists_free_candidate db with ⟨j0, hj0, hfree0⟩
    rcases uniqueLoop_finds db (db.length + 1) 1 ⟨j0, hj0, hfree0⟩ with
      ⟨j, hfree, hbefore, heq⟩
    refine ⟨1 + j, by omega, by rw [hrun, heq], hfree, ?_, ?_⟩
    · intro i hi hik
      have hsplit : i = 1 + (i - 1) := by omega
      rw [hsplit]
      exact hbefore (i - 1) (by omega)
    · rw [hrun, heq]
      exact hfree

theorem claim_C9_witness :
    get_unique_author_name "Sam Altman" [] = "Sam Altman" ∧
    (∃ k, 0 < k ∧
      get_unique_author_name "Unknown Author" ["unknown_author_1"] =
        unknownCandidate k ∧
      safe_filename (unknownCandidate k) ∉ (["unknown_author_1"] : List String) ∧
      (∀ i, 0 < i → i < k →
        safe_filename (unknownCandidate i) ∈ (["unknown_author_1"] : List String)) ∧
      safe_filename (get_unique_author_name "Unknown Author" ["unknown_author_1"]) ∉
        (["unknown_author_1"] : List String)) :=
  ⟨(claim_C9_get_unique_author_name "Sam Altman" []).1 (by decide),
    (claim_C9_get_unique_author_name "Unknown Author" ["unknown_author_1"]).2
      (by decide)⟩

example : json_loads "42" = Option.some (PyVal.int 42) := rfl

example : json_loads " -7 " = Option.some (PyVal.int (-7)) := rfl

example : json_loads "1.5" = Option.some (PyVal.float "1.5") := rfl

example : json_loads "\"hi\\n\"" = Option.some (PyVal.str "hi\n") := rfl

example : json_loads "[1, 2]" =
    Option.some (PyVal.list [PyVal.int 1, PyVal.int 2]) := rfl

example : json_loads "[1,]" = Option.none := rfl

example : json_loads "\x7b\"a\": [true, null]\x7d" =
    Option.some (PyVal.dict [("a", PyVal.list [PyVal.bool true, PyVal.none])]) := rfl

example : json_loads "\x7b\"a\": 1, \"b\": \x7b\x7d\x7d" =
    Option.some (PyVal.dict [("a", PyVal.int 1), ("b", PyVal.dict [])]) := rfl

example : json_loads "bad" = Option.none := rfl

example : json_loads "\x7bbad\x7d" = Option.none := rfl

example : json_loads "012" = Option.none := rfl

example : json_loads "" = Option.none := rfl

example : extractJsonFence "x ```json \x7b\"a\": 1\x7d ``` y" =
    Option.some "\x7b\"a\": 1\x7d" := rfl

example : extractJsonFence "```json\n\x7bbad\x7d\n```" =
    Option.some "\x7bbad\x7d" := rfl

example : extractJsonFence "no fence here" = Option.none := rfl

example : extractJsonFence "```json [1] ```" = Option.none := rfl

example : extractJsonFence "42" = Option.none := rfl

example : analyze_writing_style "```json \x7b\"Tone\": \"calm\"\x7d ```" =
    PyVal.dict [("Tone", PyVal.str "calm")] := rfl

example : analyze_writing_style "plain text" =
    styleFallback "plain text" := rfl

/-- C2, counterexample: the claim asserts `analyze_writing_style` always
returns a dictionary, but on the response `"42"` (no fenced block, whole
response valid JSON) the code returns the parsed integer `42`, which is not a
dictionary. -/
theorem claim_C2_counterexample :
    analyze_writing_style "42" = PyVal.int 42 ∧
    isPyDict (analyze_writing_style "42") = false ∧
    extractJsonFence "42" = Option.none ∧
    json_loads "42" = Option.some (PyVal.int 42) :=
  ⟨rfl, rfl, rfl, rfl⟩

/-- C2, amended: for every LLM response string, `analyze_writing_style`
returns a value (it never raises): when the response contains a ```` ```json
```` fenced block it returns the parse of that block if the block parses, and
the textual fallback `{"analysis": response, "raw_response": True}` if the
block does not parse; when there is no fenced block it returns the parse of
the whole response if the response is valid JSON — a value of any JSON type,
not necessarily a dictionary — and the textual fallback otherwise.  The
fallback itself is a dictionary. -/
theorem claim_C2_analyze_writing_style (response : String) :
    (∀ b, extractJsonFence response = Option.some b →
      (∀ v, json_loads b = Option.some v →
        analyze_writing_style response = v) ∧
      (json_loads b = Option.none →
        analyze_writing_style response = styleFallback response)) ∧
    (extractJsonFence response = Option.none →
      (∀ v, json_loads response = Option.some v →
        analyze_writing_style response = v) ∧
      (json_loads response = Option.none →
        analyze_writing_style response = styleFallback response)) ∧
    isPyDict (styleFallback response) = true := by
  refine ⟨?_, ?_, rfl⟩
  · intro b hb
    constructor
    · intro v hv
      simp only [analyze_writing_style, hb, hv]
    · intro hv
      simp only [analyze_writing_style, hb, hv]
  · intro hb
    constructor
    · intro v hv
      simp only [analyze_writing_style, hb, hv]
    · intro hv
      simp only [analyze_writing_style, hb, hv]

theorem claim_C2_witness :
    analyze_writing_style "\x7b\"a\": 1\x7d" =
      PyVal.dict [("a", PyVal.int 1)] :=
  ((claim_C2_analyze_writing_style "\x7b\"a\": 1\x7d").2.1 rfl).1
    (PyVal.dict [("a", PyVal.int 1)]) rfl

example : clean_content "```json\nhello\n```" = "hello" := rfl

example : clean_content "  plain  " = "plain" := rfl

example : clean_content "a```b" = "a```b" := rfl

theorem pyStr_str (s : String) : pyStr (PyVal.str s) = s := rfl

theorem firstHit_mem {α β : Type} (f : α → Option β) :
    ∀ (l : List α) (b : β), firstHit f l = Option.some b →
      ∃ a ∈ l, f a = Option.some b := by
  intro l
  induction l with
  | nil => intro b h; simp [firstHit] at h
  | cons a as ih =>
    intro b h
    rw [firstHit] at h
    rcases ha : f a with _ | v
    · rw [ha] at h
      rcases ih b h with ⟨x, hx, hfx⟩
      exact ⟨x, List.mem_cons_of_mem _ hx, hfx⟩
    · rw [ha] at h
      exact ⟨a, List.mem_cons_self _ _, ha.trans h⟩

theorem listStarts_append (p q : List Char) :
    ∀ l, listStarts (p ++ q) l = true → listStarts p l = true := by
  induction p with
  | nil => intro l _; rfl
  | cons x ps ih =>
    intro l h
    match l with
    | [] => exact absurd h (by simp [listStarts])
    | c :: cs =>
      simp only [List.cons_append, listStarts, Bool.and_eq_true] at h ⊢
      exact ⟨h.1, ih cs h.2⟩

theorem phase1AR_spec (ar : ActionResult) (v : PyVal)
    (h : phase1AR ar = Option.some v) :
    isPyDict v = true ∧ 500 < (pyStr v).length := by
  unfold phase1AR at h
  repeat' split at h
  all_goals simp_all

theorem phase2strCase_ret (content : String) (v : PyVal)
    (h : phase2strCase content = LoopCtl.ret v) :
    (isPyDict v = true ∧ 500 < (pyStr v).length) ∨
      (v = PyVal.str content ∧ summaryFilterA content = false ∧
        500 < content.length) := by
  unfold phase2strCase at h
  repeat' split at h
  all_goals simp_all

theorem phase2branchA_ret (ar : ActionResult) (v : PyVal)
    (h : phase2branchA ar = LoopCtl.ret v) :
    (isPyDict v = true ∧ 500 < (pyStr v).length) ∨
      (∃ s, v = PyVal.str s ∧ summaryFilterA s = false ∧ 500 < s.length) ∨
      ((isPyDict v = true ∨ isPyList v = true) ∧ 200 < (pyStr v).length) := by
  unfold phase2branchA at h
  repeat' split at h
  all_goals try simp_all
  · rcases phase2strCase_ret _ v h with hc | hc
    · exact Or.inl hc
    · exact Or.inr (Or.inl ⟨_, hc⟩)

theorem phase2strCaseB_gt (content : String) (v : PyVal)
    (h : phase2strCaseB content = Option.some v) :
    200 < (pyStr v).length := by
  unfold phase2strCaseB at h
  repeat' split at h
  all_goals try simp_all [pyStr_str]
  all_goals subst h
  all_goals try simp_all [pyStr_str]
  all_goals omega

theorem phase2branchB_gt (ar : ActionResult) (v : PyVal)
    (h : phase2branchB ar = Option.some v) :
    200 < (pyStr v).length := by
  unfold phase2branchB at h
  repeat' split at h
  all_goals try simp_all
  exact phase2strCaseB_gt _ v h

theorem phase2AR_gt (ar : ActionResult) (v : PyVal)
    (h : phase2AR ar = Option.some v) :
    200 < (pyStr v).length := by
  unfold phase2AR at h
  split at h
  · rename_i hr
    have := phase2branchA_ret ar v (by simp_all)
    rcases this with ⟨_, hgt⟩ | ⟨s, rfl, _, hgt⟩ | ⟨_, hgt⟩
    · omega
    · rw [pyStr_str]; omega
    · omega
  · exact absurd h (by simp)
  · exact phase2branchB_gt ar v h

theorem phase3strCase_spec (content : PyVal) (v : PyVal)
    (h : phase3strCase content = Option.some v) :
    ∃ s, v = PyVal.str s ∧ summaryFilterC s = false ∧ 500 < s.length := by
  unfold phase3strCase at h
  repeat' split at h
  all_goals try simp_all
  exact ⟨_, h.symm, by assumption, by omega⟩

theorem phase3attr_spec (x : Option PyVal) (v : PyVal)
    (h : phase3attr x = Option.some v) :
    ∃ s, v = PyVal.str s ∧ summaryFilterC s = false ∧ 500 < s.length := by
  unfold phase3attr at h
  repeat' split at h
  · simp at h
  · exact phase3strCase_spec _ v h
  · exact phase3strCase_spec _ v h

theorem phase3AR_spec (ar : ActionResult) (v : PyVal)
    (h : phase3AR ar = Option.some v) :
    ∃ s, v = PyVal.str s ∧ summaryFilterC s = false ∧ 500 < s.length := by
  unfold phase3AR at h
  split at h
  · exact absurd h (by simp)
  · split at h
    · exact phase3attr_spec ar.content v (by simp_all)
    · split at h
      · exact phase3attr_spec ar.text v (by simp_all)
      · exact phase3attr_spec ar.result v h

theorem summaryFilterA_false_spec (s : String)
    (h : summaryFilterA s = false) :
    pyStartsWith s "The task was successfully completed" = false ∧
    pyStartsWith s "Successfully extracted" = false ∧
    pyStartsWith s "The main content of" = false ∧
    pyStartsWith s "The page" = false ∧ ¬ s.length < 200 := by
  simp only [summaryFilterA, Bool.or_eq_false_iff, decide_eq_false_iff_not] at h
  tauto

theorem summaryFilterC_false_spec (s : String)
    (h : summaryFilterC s = false) :
    pyStartsWith s "The task was successfully completed" = false ∧
    pyStartsWith s "Successfully extracted" = false ∧
    pyStartsWith s "The main content of" = false ∧
    pyStartsWith s "The page" = false := by
  simp only [summaryFilterC, Bool.or_eq_false_iff] at h
  refine ⟨h.1.1.1.1.1.1, ?_, h.1.1.1.2, h.1.1.1.1.2⟩
  have hshort : pyStartsWith s "Successfully" = false := h.1.1.1.1.1.2
  by_contra hlong
  rw [Bool.not_eq_false] at hlong
  have hfull : listStarts ("Successfully".data ++ " extracted".data) s.data = true :=
    hlong
  rw [Bool.eq_false_iff] at hshort
  exact hshort (listStarts_append _ _ _ hfull)

/-- C3, amended: for every agent history whose run completes without raising,
`extract_content_from_url` scans the history steps from the last step
backwards and returns either `None` or content whose string rendering is
strictly longer than 200 characters.  Strings drawn from `extracted_content`
(phase 2) or from the scanned `content`/`text`/`result` attributes (phase 3)
are additionally never agent summaries: they cannot start with
`"The task was successfully completed"`, `"Successfully extracted"`,
`"The main content of"`, or `"The page"` (and are in fact longer than 500
characters); the first phase returns only parsed dictionaries.  The claim's
blanket no-summary guarantee does not hold, because strings taken from an
`extract_content` action's `result` attribute (url2txts.py lines 296-314)
bypass the summary filter — see the counterexample. -/
theorem claim_C3_amended (steps : List HStep) :
    (∀ v, extract_content_from_url steps = Option.some v →
      200 < (pyStr v).length) ∧
    (∀ v, phase1 steps = Option.some v → isPyDict v = true) ∧
    (∀ ar s, phase2branchA ar = LoopCtl.ret (PyVal.str s) →
      500 < s.length ∧
      pyStartsWith s "The task was successfully completed" = false ∧
      pyStartsWith s "Successfully extracted" = false ∧
      pyStartsWith s "The main content of" = false ∧
      pyStartsWith s "The page" = false) ∧
    (∀ ar s, phase3AR ar = Option.some (PyVal.str s) →
      500 < s.length ∧
      pyStartsWith s "The task was successfully completed" = false ∧
      pyStartsWith s "Successfully extracted" = false ∧
      pyStartsWith s "The main content of" = false ∧
      pyStartsWith s "The page" = false) := by
  refine ⟨?_, ?_, ?_, ?_⟩
  · intro v h
    unfold extract_content_from_url at h
    split at h
    · rename_i h1
      rw [Option.some.injEq] at h
      subst h
      rcases firstHit_mem _ _ _ h1 with ⟨st, _, hst⟩
      rcases firstHit_mem _ _ _ hst with ⟨ar, _, har⟩
      have := phase1AR_spec ar _ har
      omega
    · split at h
      · rename_i h2
        rw [Option.some.injEq] at h
        subst h
        rcases firstHit_mem _ _ _ h2 with ⟨st, _, hst⟩
        rcases firstHit_mem _ _ _ hst with ⟨ar, _, har⟩
        exact phase2AR_gt ar _ har
      · rcases firstHit_mem _ _ _ h with ⟨st, _, hst⟩
        rcases firstHit_mem _ _ _ hst with ⟨ar, _, har⟩
        rcases phase3AR_spec ar v har with ⟨s, rfl, _, hgt⟩
        rw [pyStr_str]
        omega
  · intro v h
    rcases firstHit_mem _ _ _ h with ⟨st, _, hst⟩
    rcases firstHit_mem _ _ _ hst with ⟨ar, _, har⟩
    exact (phase1AR_spec ar v har).1
  · intro ar s h
    rcases phase2branchA_ret ar (PyVal.str s) h with
      ⟨hd, _⟩ | ⟨s2, hs2, hfa, hgt⟩ | ⟨hd, _⟩
    · simp [isPyDict] at hd
    · have he : s = s2 := by injection hs2
      subst he
      rcases summaryFilterA_false_spec s hfa with ⟨h1, h2, h3, h4, _⟩
      exact ⟨hgt, h1, h2, h3, h4⟩
    · rcases hd with hd | hd
      · simp [isPyDict] at hd
      · simp [isPyList] at hd
  · intro ar s h
    rcases phase3AR_spec ar (PyVal.str s) h with ⟨s2, hs2, hfc, hgt⟩
    have he : s = s2 := by injection hs2
    subst he
    rcases summaryFilterC_false_spec s hfc with ⟨h1, h2, h3, h4⟩
    exact ⟨hgt, h1, h2, h3, h4⟩

set_option maxRecDepth 10000 in
/-- C3, counterexample: a history with a single step holding one action
result whose `extracted_content` is `None`, whose `action_type` is
`'extract_content'`, and whose `result` is a 210-character string starting
with `"The page"`.  The claim says the returned value is never a string
recognized as an agent summary, but `extract_content_from_url` returns
exactly that summary string: the `action_type == 'extract_content'` branch
applies no summary filtering. -/
theorem claim_C3_counterexample :
    extract_content_from_url cexSteps = Option.some (PyVal.str badSummary) ∧
    pyStartsWith badSummary "The page" = true ∧
    badSummary.length = 210 :=
  ⟨rfl, rfl, rfl⟩

set_option maxRecDepth 10000 in
theorem claim_C3_witness :
    200 < (pyStr (PyVal.str badSummary)).length :=
  (claim_C3_amended cexSteps).1 (PyVal.str badSummary) rfl

/-- Master characterization of one run: the completed steps are a prefix of
the fixed step order, the write log is a prefix of the five artifact paths in
write order, exactly one session directory is created as soon as author
inference completes, success holds exactly when at least the first five steps
completed, and success forces all five artifacts to have been written. -/
theorem run_spec (o : PipelineOracle) :
    ∃ k w, k ≤ 6 ∧ w ≤ 5 ∧
      (run_complete_analysis o).1.completed_steps = stepOrder.take k ∧
      (run_complete_analysis o).2.fs = (artifactPaths o).take w ∧
      (run_complete_analysis o).2.sessionDirs =
        (if 1 ≤ k then [sessionPath (infer_author_from_content o) o.timestamp]
          else []) ∧
      ((run_complete_analysis o).1.success = true ↔ 5 ≤ k) ∧
      (5 ≤ k → w = 5) := by
  rcases hL : o.loadContent with u | content
  · refine ⟨0, 0, by omega, by omega, ?_, ?_, ?_, ?_, by omega⟩ <;>
      simp [run_complete_analysis, hL, initState, stepOrder, artifactPaths]
  · rcases hA : o.analyzeResult with u | style
    · refine ⟨1, 0, by omega, by omega, ?_, ?_, ?_, ?_, by omega⟩ <;>
        simp [run_complete_analysis, hL, analyze_mentor_style, hA,
          setup_session, initState, stepOrder, artifactPaths]
    · by_cases hV1 :
        o.validateOk (centralStylePath (infer_author_from_content o)) = true
      · rcases hP : o.promptsResult with u | prompts
        · refine ⟨2, 2, by omega, by omega, ?_, ?_, ?_, ?_, by omega⟩ <;>
            simp [run_complete_analysis, hL, analyze_mentor_style, hA, hV1,
              generate_mentor_prompts, hP, setup_session, initState,
              stepOrder, artifactPaths, writeFile]
        · by_cases hV2 :
            o.validateOk (sessionPath (infer_author_from_content o) o.timestamp ++
              "/mentor_prompts.json") = true
          · rcases hQ : llm3 o with u | qar
            · refine ⟨3, 3, by omega, by omega, ?_, ?_, ?_, ?_, by omega⟩ <;>
                simp [run_complete_analysis, hL, analyze_mentor_style, hA, hV1,
                  generate_mentor_prompts, hP, hV2, generate_daily_mentorgram,
                  hQ, setup_session, initState, stepOrder, artifactPaths,
                  writeFile]
            · by_cases hV3 :
                o.validateOk (sessionPath (infer_author_from_content o)
                  o.timestamp ++ "/mentorgram_" ++ o.date ++ ".json") = true
              · by_cases hV4 :
                  o.validateOk (sessionPath (infer_author_from_content o)
                    o.timestamp ++ "/session_summary.json") = true
                · rcases hS : o.saveDbOk with _ | _
                  · refine ⟨5, 5, by omega, by omega, ?_, ?_, ?_, ?_, by omega⟩ <;>
                      simp [run_complete_analysis, hL, analyze_mentor_style,
                        hA, hV1, generate_mentor_prompts, hP, hV2,
                        generate_daily_mentorgram, hQ, hV3,
                        create_session_summary, mgLookup, hV4,
                        update_mentors_database, hS, setup_session, initState,
                        stepOrder, artifactPaths, writeFile]
                  · refine ⟨6, 5, by omega, by omega, ?_, ?_, ?_, ?_, by omega⟩ <;>
                      simp [run_complete_analysis, hL, analyze_mentor_style,
                        hA, hV1, generate_mentor_prompts, hP, hV2,
                        generate_daily_mentorgram, hQ, hV3,
                        create_session_summary, mgLookup, hV4,
                        update_mentors_database, hS, setup_session, initState,
                        stepOrder, artifactPaths, writeFile]
                · refine ⟨4, 5, by omega, by omega, ?_, ?_, ?_, ?_, by omega⟩ <;>
                    simp [run_complete_analysis, hL, analyze_mentor_style, hA,
                      hV1, generate_mentor_prompts, hP, hV2,
                      generate_daily_mentorgram, hQ, hV3,
                      create_session_summary, mgLookup, hV4, setup_session,
                      initState, stepOrder, artifactPaths, writeFile]
              · refine ⟨3, 4, by omega, by omega, ?_, ?_, ?_, ?_, by omega⟩ <;>
                  simp [run_complete_analysis, hL, analyze_mentor_style, hA,
                    hV1, generate_mentor_prompts, hP, hV2,
                    generate_daily_mentorgram, hQ, hV3, setup_session,
                    initState, stepOrder, artifactPaths, writeFile]
          · refine ⟨2, 3, by omega, by omega, ?_, ?_, ?_, ?_, by omega⟩ <;>
              simp [run_complete_analysis, hL, analyze_mentor_style, hA, hV1,
                generate_mentor_prompts, hP, hV2, setup_session, initState,
                stepOrder, artifactPaths, writeFile]
      · refine ⟨1, 2, by omega, by omega, ?_, ?_, ?_, ?_, by omega⟩ <;>
          simp [run_complete_analysis, hL, analyze_mentor_style, hA, hV1,
            setup_session, initState, stepOrder, artifactPaths, writeFile]

theorem strExt {a b : String} (h : a.data = b.data) : a = b :=
  congrArg String.mk h

theorem strAppend_cancel {d a b : String} (h : d ++ a = d ++ b) : a = b := by
  apply strExt
  have h2 := congrArg String.data h
  simp only [String.data_append] at h2
  exact List.append_cancel_left h2

theorem listStarts_append_right :
    ∀ (p a b : List Char), listStarts p a = true →
      listStarts p (a ++ b) = true := by
  intro p
  induction p with
  | nil => intro a b _; rfl
  | cons x ps ih =>
    intro a b h
    match a with
    | [] => simp [listStarts] at h
    | c :: cs =>
      simp only [listStarts, Bool.and_eq_true] at h ⊢
      exact ⟨h.1, ih cs b h.2⟩

theorem listStarts_eq_of_both :
    ∀ (p q l : List Char), p.length = q.length → listStarts p l = true →
      listStarts q l = true → p = q := by
  intro p
  induction p with
  | nil =>
    intro q l hlen _ _
    match q with
    | [] => rfl
    | _ :: _ => simp at hlen
  | cons x ps ih =>
    intro q l hlen hp hq
    match q, l with
    | [], _ => simp at hlen
    | y :: qs, [] => simp [listStarts] at hp
    | y :: qs, c :: cs =>
      simp only [listStarts, Bool.and_eq_true, beq_iff_eq] at hp hq
      simp only [List.length_cons, Nat.succ.injEq] at hlen
      rw [hp.1, hq.1, ih qs cs hlen hp.2 hq.2]

/-- Two strings with distinct same-length initial segments are distinct. -/
theorem ne_of_distinct_starts {a b : String} (p q : List Char)
    (hp : listStarts p a.data = true) (hq : listStarts q b.data = true)
    (hlen : p.length = q.length) (hne : p ≠ q) : a ≠ b := by
  intro h
  rw [h] at hp
  exact hne (listStarts_eq_of_both _ _ _ hlen hp hq)

/-- The central style file never coincides with any file under a session
directory: the two differ at offset 9 (`styles` vs `sessions`). -/
theorem central_ne_sessionFile (m ts suffix : String) :
    centralStylePath m ≠ sessionPath m ts ++ suffix := by
  apply ne_of_distinct_starts "mentors/st".data "mentors/se".data
  · simp only [centralStylePath, String.data_append]
    apply listStarts_append_right
    apply listStarts_append_right
    decide
  · simp only [sessionPath, String.data_append]
    apply listStarts_append_right
    apply listStarts_append_right
    apply listStarts_append_right
    apply listStarts_append_right
    decide
  · decide
  · decide

theorem append_ne_of_ne (d : String) {a b : String} (h : a ≠ b) :
    d ++ a ≠ d ++ b :=
  fun he => h (strAppend_cancel he)

theorem artifactPaths_nodup (o : PipelineOracle) :
    (artifactPaths o).Nodup := by
  have hmg : listStarts "/m".data
      ("/mentorgram_" ++ o.date ++ ".json").data = true := by
    simp only [String.data_append]
    apply listStarts_append_right
    apply listStarts_append_right
    decide
  have hmg8 : listStarts "/mentorg".data
      ("/mentorgram_" ++ o.date ++ ".json").data = true := by
    simp only [String.data_append]
    apply listStarts_append_right
    apply listStarts_append_right
    decide
  simp only [artifactPaths]
  set m := infer_author_from_content o
  set dir := sessionPath m o.timestamp with hdir
  have assoc4 : dir ++ "/mentorgram_" ++ o.date ++ ".json" =
      dir ++ ("/mentorgram_" ++ o.date ++ ".json") := by
    simp [String.append_assoc]
  have h12 : dir ++ "/style_analysis.json" ≠ centralStylePath m :=
    fun h => central_ne_sessionFile m o.timestamp _ h.symm
  have h13 : dir ++ "/style_analysis.json" ≠ dir ++ "/mentor_prompts.json" :=
    append_ne_of_ne dir (by decide)
  have h14 : dir ++ "/style_analysis.json" ≠
      dir ++ "/mentorgram_" ++ o.date ++ ".json" := by
    rw [assoc4]
    refine append_ne_of_ne dir ?_
    exact ne_of_distinct_starts "/s".data "/m".data (by decide) hmg
      (by decide) (by decide)
  have h15 : dir ++ "/style_analysis.json" ≠ dir ++ "/session_summary.json" :=
    append_ne_of_ne dir (by decide)
  have h23 : centralStylePath m ≠ dir ++ "/mentor_prompts.json" :=
    central_ne_sessionFile m o.timestamp _
  have h24 : centralStylePath m ≠
      dir ++ "/mentorgram_" ++ o.date ++ ".json" := by
    rw [assoc4]
    exact central_ne_sessionFile m o.timestamp _
  have h25 : centralStylePath m ≠ dir ++ "/session_summary.json" :=
    central_ne_sessionFile m o.timestamp _
  have h34 : dir ++ "/mentor_prompts.json" ≠
      dir ++ "/mentorgram_" ++ o.date ++ ".json" := by
    rw [assoc4]
    refine append_ne_of_ne dir ?_
    exact ne_of_distinct_starts "/mentor_".data "/mentorg".data (by decide)
      hmg8 (by decide) (by decide)
  have h35 : dir ++ "/mentor_prompts.json" ≠ dir ++ "/session_summary.json" :=
    append_ne_of_ne dir (by decide)
  have h45 : dir ++ "/mentorgram_" ++ o.date ++ ".json" ≠
      dir ++ "/session_summary.json" := by
    rw [assoc4]
    refine append_ne_of_ne dir ?_
    exact ne_of_distinct_starts "/m".data "/s".data hmg (by decide)
      (by decide) (by decide)
  refine List.nodup_cons.mpr ⟨?_, List.nodup_cons.mpr ⟨?_,
    List.nodup_cons.mpr ⟨?_, List.nodup_cons.mpr ⟨?_, List.nodup_singleton _⟩⟩⟩⟩
  · simp only [List.mem_cons, List.mem_singleton, List.not_mem_nil, or_false]
    push_neg
    exact ⟨h12, h13, h14, h15⟩
  · simp only [List.mem_cons, List.mem_singleton, List.not_mem_nil, or_false]
    push_neg
    exact ⟨h23, h24, h25⟩
  · simp only [List.mem_cons, List.mem_singleton, List.not_mem_nil, or_false]
    push_neg
    exact ⟨h34, h35⟩
  · simp only [List.mem_singleton, List.not_mem_nil, or_false]
    exact h45

/-- C6: for every input, `run_complete_analysis` attempts its steps in the
fixed order author_inference, style_analysis, mentor_prompts, mentorgram,
session_summary, database_update, stopping at the first step that fails;
the returned `completed_steps` list is always a prefix (`stepOrder.take k`)
of that six-element sequence, and `success` is `True` only if the first five
steps all completed (`5 ≤ k`). -/
theorem claim_C6_run_order (o : PipelineOracle) :
    ∃ k ≤ 6,
      (run_complete_analysis o).1.completed_steps = stepOrder.take k ∧
      ((run_complete_analysis o).1.success = true → 5 ≤ k) := by
  rcases run_spec o with ⟨k, w, hk, _, hcomp, _, _, hsucc, _⟩
  exact ⟨k, hk, hcomp, fun h => hsucc.mp h⟩

theorem claim_C6_witness :
    ∃ k ≤ 6,
      (run_complete_analysis orOk).1.completed_steps = stepOrder.take k ∧
      ((run_complete_analysis orOk).1.success = true → 5 ≤ k) :=
  claim_C6_run_order orOk

/-- C1, amended: the complete-analysis workflow validates, but does not
retry: every artifact-producing step writes its JSON file and validates it
with `validate_json_file` exactly once — the write log is a duplicate-free
prefix of the five artifact paths, so no artifact is ever written (hence
validated) a second time — and when a validation fails the step returns
`None` and the workflow gives up on the run immediately (see the
counterexample for a failing validation aborting after a single attempt).
A successful run has written all five artifacts. -/
theorem claim_C1_amended (o : PipelineOracle) :
    (∃ w ≤ 5, (run_complete_analysis o).2.fs = (artifactPaths o).take w) ∧
    (∀ p, (run_complete_analysis o).2.fs.count p ≤ 1) ∧
    ((run_complete_analysis o).1.success = true →
      (run_complete_analysis o).2.fs = artifactPaths o) := by
  rcases run_spec o with ⟨k, w, hk, hw, _, hfs, _, hsucc, hfive⟩
  have hlen : (artifactPaths o).length = 5 := by simp [artifactPaths]
  refine ⟨⟨w, hw, hfs⟩, ?_, ?_⟩
  · intro p
    rw [hfs]
    have hnd : ((artifactPaths o).take w).Nodup :=
      (artifactPaths_nodup o).sublist (List.take_sublist w _)
    exact List.nodup_iff_count_le_one.mp hnd p
  · intro h
    rw [hfs, hfive (hsucc.mp h), ← hlen, List.take_length]

/-- C1, counterexample: with an oracle on which every LLM call succeeds but
`validate_json_file` always fails, the style-analysis artifact is written and
validated exactly once (`count = 1`), and the workflow gives up with only
author_inference completed — the claim's "retried at least once before the
workflow gives up" would require at least two attempts. -/
theorem claim_C1_counterexample :
    (run_complete_analysis orNoValidate).2.fs.count
        (centralStylePath "Sam Altman") = 1 ∧
    (run_complete_analysis orNoValidate).1.success = false ∧
    (run_complete_analysis orNoValidate).1.completed_steps =
      ["author_inference"] ∧
    orNoValidate.validateOk (centralStylePath "Sam Altman") = false := by
  refine ⟨by decide, rfl, rfl, rfl⟩

theorem claim_C1_witness :
    ∃ w ≤ 5,
      (run_complete_analysis orOk).2.fs = (artifactPaths orOk).take w :=
  (claim_C1_amended orOk).1

/-- C4: for every mentor name and every run of `run_complete_analysis` that
returns with `success = True`, the run created exactly one session directory
named `session_<safe_filename(mentor_name)>_<timestamp>` under
`mentors/sessions`, and that directory contains the files
`style_analysis.json`, `mentor_prompts.json`, `mentorgram_<date>.json`, and
`session_summary.json`. -/
theorem claim_C4_session_files (o : PipelineOracle)
    (h : (run_complete_analysis o).1.success = true) :
    (run_complete_analysis o).2.sessionDirs =
      [sessionPath (infer_author_from_content o) o.timestamp] ∧
    sessionPath (infer_author_from_content o) o.timestamp ++
      "/style_analysis.json" ∈ (run_complete_analysis o).2.fs ∧
    sessionPath (infer_author_from_content o) o.timestamp ++
      "/mentor_prompts.json" ∈ (run_complete_analysis o).2.fs ∧
    sessionPath (infer_author_from_content o) o.timestamp ++
      "/mentorgram_" ++ o.date ++ ".json" ∈ (run_complete_analysis o).2.fs ∧
    sessionPath (infer_author_from_content o) o.timestamp ++
      "/session_summary.json" ∈ (run_complete_analysis o).2.fs := by
  rcases run_spec o with ⟨k, w, hk, hw, _, hfs, hdirs, hsucc, hfive⟩
  have hk5 := hsucc.mp h
  have hlen : (artifactPaths o).length = 5 := by simp [artifactPaths]
  have hfull : (run_complete_analysis o).2.fs = artifactPaths o := by
    rw [hfs, hfive hk5, ← hlen, List.take_length]
  refine ⟨by rw [hdirs, if_pos (by omega)], ?_, ?_, ?_, ?_⟩ <;>
    (rw [hfull]; simp [artifactPaths])

theorem claim_C4_witness :
    (run_complete_analysis orOk).2.sessionDirs =
      [sessionPath (infer_author_from_content orOk) orOk.timestamp] ∧
    sessionPath (infer_author_from_content orOk) orOk.timestamp ++
      "/style_analysis.json" ∈ (run_complete_analysis orOk).2.fs ∧
    sessionPath (infer_author_from_content orOk) orOk.timestamp ++
      "/mentor_prompts.json" ∈ (run_complete_analysis orOk).2.fs ∧
    sessionPath (infer_author_from_content orOk) orOk.timestamp ++
      "/mentorgram_" ++ orOk.date ++ ".json" ∈ (run_complete_analysis orOk).2.fs ∧
    sessionPath (infer_author_from_content orOk) orOk.timestamp ++
      "/session_summary.json" ∈ (run_complete_analysis orOk).2.fs :=
  claim_C4_session_files orOk (by decide)

/-- C5: whenever `generate_daily_mentorgram` returns a non-`None` value,
that value is a dictionary with exactly the keys date, mentor, topic, quote,
action, reflection (in insertion order), where mentor equals the
`mentor_name` argument, topic equals the `topic` argument when a non-empty
topic was supplied, and date is the current date (the oracle's
`strftime("%Y-%m-%d")` value). -/
theorem claim_C5_mentorgram (st : PipelineState) (o : PipelineOracle)
    (style : PyVal) (mentor_name : String) (topic : Option String)
    (mg : List (String × String))
    (h : (generate_daily_mentorgram st o style mentor_name topic).2 =
      Option.some mg) :
    mg.map Prod.fst =
      ["date", "mentor", "topic", "quote", "action", "reflection"] ∧
    mgLookup mg "mentor" = Option.some mentor_name ∧
    (∀ t, topic = Option.some t → t ≠ "" →
      mgLookup mg "topic" = Option.some t) ∧
    mgLookup mg "date" = Option.some o.date := by
  unfold generate_daily_mentorgram at h
  rcases hQ : llm3 o with _ | qar
  · rw [hQ] at h
    simp at h
  · rw [hQ] at h
    obtain ⟨q, a, r⟩ := qar
    rcases hD : st.output_dir with _ | dir
    · rw [hD] at h
      simp at h
    · rw [hD] at h
      by_cases hV :
          o.validateOk (dir ++ "/mentorgram_" ++ o.date ++ ".json") = true
      · simp only [hV, if_true, Option.some.injEq] at h
        subst h
        refine ⟨by simp, by simp [mgLookup, List.find?], ?_,
          by simp [mgLookup, List.find?]⟩
        intro t ht hne
        subst ht
        simp [mgLookup, List.find?, hne]
      · simp only [hV, if_false, Bool.false_eq_true] at h
        simp at h

theorem claim_C5_witness :
    ([("date", orOk.date), ("mentor", "Sam Altman"), ("topic", "focus"),
        ("quote", pyStrip "q"), ("action", pyStrip "a"),
        ("reflection", pyStrip "r")].map Prod.fst =
      ["date", "mentor", "topic", "quote", "action", "reflection"]) ∧
    mgLookup [("date", orOk.date), ("mentor", "Sam Altman"), ("topic", "focus"),
        ("quote", pyStrip "q"), ("action", pyStrip "a"),
        ("reflection", pyStrip "r")] "mentor" = Option.some "Sam Altman" ∧
    (∀ t, (Option.some "focus" : Option String) = Option.some t → t ≠ "" →
      mgLookup [("date", orOk.date), ("mentor", "Sam Altman"),
        ("topic", "focus"), ("quote", pyStrip "q"), ("action", pyStrip "a"),
        ("reflection", pyStrip "r")] "topic" = Option.some t) ∧
    mgLookup [("date", orOk.date), ("mentor", "Sam Altman"), ("topic", "focus"),
        ("quote", pyStrip "q"), ("action", pyStrip "a"),
        ("reflection", pyStrip "r")] "date" = Option.some orOk.date :=
  claim_C5_mentorgram
    { output_dir := Option.some "d", fs := [], sessionDirs := [] } orOk
    (PyVal.dict []) "Sam Altman" (Option.some "focus") _ rfl

/-- C8: when no session directory has been set (`output_dir` is `None`),
`generate_mentor_prompts`, `generate_daily_mentorgram`, and
`create_session_summary` each return `None` for every input — also when the
underlying LLM generation succeeds, as the witness (whose oracle makes every
call succeed) demonstrates. -/
theorem claim_C8_no_output_dir (st : PipelineState) (o : PipelineOracle)
    (style : PyVal) (mentor_name : String) (topic : Option String)
    (mg : List (String × String)) (prompts : PyVal)
    (h : st.output_dir = Option.none) :
    (generate_mentor_prompts st o style mentor_name).2 = Option.none ∧
    (generate_daily_mentorgram st o style mentor_name topic).2 =
      Option.none ∧
    (create_session_summary st o mentor_name style mg prompts).2 =
      Option.none := by
  refine ⟨?_, ?_, ?_⟩
  · unfold generate_mentor_prompts
    rcases hp : o.promptsResult with _ | p <;> simp [h]
  · unfold generate_daily_mentorgram
    rcases hq : llm3 o with _ | qar
    · simp
    · obtain ⟨q, a, r⟩ := qar
      simp [h]
  · unfold create_session_summary
    rcases hm : mgLookup mg "date" with _ | d <;> simp [hm, h]

theorem claim_C8_witness :
    (generate_mentor_prompts initState orOk (PyVal.dict []) "Sam Altman").2 =
      Option.none ∧
    (generate_daily_mentorgram initState orOk (PyVal.dict []) "Sam Altman"
      Option.none).2 = Option.none ∧
    (create_session_summary initState orOk "Sam Altman" (PyVal.dict [])
      [("date", "2025-01-01")] (PyVal.dict [])).2 = Option.none :=
  claim_C8_no_output_dir initState orOk (PyVal.dict []) "Sam Altman"
    Option.none [("date", "2025-01-01")] (PyVal.dict []) rfl

/-- C7, counterexample: the GUI can reach a state with two tracked processes
in the `Running` state.  Trace: Start is clicked (a process begins
`Starting`); Cancel is clicked while it is still starting — the cancel
handler kills `Running` processes only, and re-enables the buttons; Start is
clicked again — the `run_script` guard checks only for `Running` processes,
so it starts a second one; then both startup notifications arrive. -/
theorem claim_C7_counterexample : GuiReach badGui ∧ countRunning badGui = 2 := by
  constructor
  · have h1 : GuiReach (mkGui [PState.starting] false true) := by
      have h := GuiReach.step GuiReach.init (GuiStep.clickStart initGui rfl)
      simpa [runScript, initGui, mkGui] using h
    have h2 : GuiReach (mkGui [PState.starting] true false) :=
      GuiReach.step h1 (GuiStep.clickCancel _ rfl)
    have h3 : GuiReach (mkGui [PState.starting, PState.starting] false true) := by
      have h := GuiReach.step h2 (GuiStep.clickStart _ rfl)
      simpa [runScript, mkGui] using h
    have h4 : GuiReach (mkGui [PState.running, PState.starting] false true) := by
      have h := GuiReach.step h3 (GuiStep.startConfirmed _ 0 rfl)
      simpa [mkGui] using h
    have h5 := GuiReach.step h4 (GuiStep.startConfirmed _ 1 rfl)
    simpa [badGui, mkGui] using h5
  · decide

theorem countRunning_runScriptSync (s : GuiState) (h : countRunning s ≤ 1) :
    countRunning (runScriptSync s) ≤ 1 := by
  unfold runScriptSync
  split
  · exact h
  · rename_i hany
    have hnone : s.procs.filter (fun p => p == PState.running) = [] := by
      rw [List.filter_eq_nil]
      intro p hp hpr
      exact hany (List.any_eq_true.mpr ⟨p, hp, hpr⟩)
    simp [countRunning, mkGui, List.filter_append, hnone]

theorem countRunning_erase (s : GuiState) (i : Nat) (b c : Bool)
    (h : countRunning s ≤ 1) :
    countRunning (mkGui (s.procs.eraseIdx i) b c) ≤ 1 := by
  have hsub : List.Sublist
      ((s.procs.eraseIdx i).filter (fun p => p == PState.running))
      (s.procs.filter (fun p => p == PState.running)) :=
    (List.eraseIdx_sublist s.procs i).filter _
  exact le_trans hsub.length_le h

/-- C7, amended: provided process startup is instantaneous — a started
process is immediately in the `Running` state, with no intermediate
`Starting` phase — at most one tracked `QProcess` is `Running` in every
reachable GUI state, because `run_script` returns without starting a new
process whenever any tracked process is in the `Running` state.  (With Qt's
asynchronous `Starting` phase the invariant fails: cancelling while a
process is still starting re-enables the buttons without killing it, and a
second process can be launched — see the counterexample.) -/
theorem claim_C7_amended :
    (∀ s, GuiReachSync s → countRunning s ≤ 1) ∧
    (∀ s, s.procs.any (fun p => p == PState.running) = true →
      runScriptSync s = s ∧ runScript s = s) := by
  constructor
  · intro s hs
    induction hs with
    | init => decide
    | step hr hstep ih =>
      cases hstep with
      | clickStart h => exact countRunning_runScriptSync _ ih
      | clickCancel h => exact ih
      | procFinishedEnable i h => exact countRunning_erase _ i true false ih
      | procFinishedChain i h =>
        exact countRunning_runScriptSync _
          (countRunning_erase _ i _ false ih)
  · intro s h
    constructor
    · unfold runScriptSync
      rw [if_pos h]
    · unfold runScript
      rw [if_pos h]

theorem claim_C7_witness :
    countRunning initGui ≤ 1 ∧
    runScriptSync (mkGui [PState.running] false true) =
      mkGui [PState.running] false true :=
  ⟨claim_C7_amended.1 initGui GuiReachSync.init,
    (claim_C7_amended.2 (mkGui [PState.running] false true) (by decide)).1⟩
